import Mathlib

/-!
# eksdefault: the kube-config context store and its coupling to the AWS credential store

A shallow embedding of `filehandler.go` (package `eksdefault`), of the functions of
`cmd/eksdefault/main.go` that resolve IDs, add contexts and build the table listing, and of
`fetchContexts` of `cmd/eksdefault-gtk3/main.go`.

Modelling conventions

* Methods with a pointer receiver `k *KubeConfig` take the store and the outside world and
  return the new world, the new store and the Go `error` (`none` is `nil`).
* The YAML codec (`gopkg.in/yaml.v2`) is a library outside the package.  A file is represented by
  what the decoder makes of its bytes (`FileContent`); `yaml.Marshal` produces the document that
  decodes to the marshalled fields again.
* `*Context` is a pointer that is either `nil` or points to a block owned by one context entry
  (the decoder and the commands allocate a fresh block per entry), so it is an `Option`.
* `sort.Slice` is not stable.  For slices of at most 12 elements the embedding follows the
  algorithm of package `sort` in the Go releases up to 1.18, which are contemporary with the
  source: one shell pass with gap 6, then an insertion sort.  Longer slices, for which Go runs a
  quicksort, are sorted by insertion.  The theorems use of the sort only that its result is a
  permutation of the input in non-decreasing order of `Name`; where the order among entries
  with equal names would matter they assume pairwise distinct names.
* A failing `ioutil.WriteFile` leaves the previous content of the file in place.
* A function that can raise a run-time panic returns `Except Panic`; `int` is 64 bits wide.
-/

namespace Eksdefault

/-! ## Data model -/

/-- Go `error` values that occur in the package and in its collaborators. -/
inductive Error where
  /-- The package variable `NoProfilSet`. -/
  | NoProfilSet
  /-- Failure of `ioutil.ReadFile` on the given path. -/
  | readFile (path : String)
  /-- Failure of `yaml.Unmarshal` on the content. -/
  | unmarshal (msg : String)
  /-- The error `[KUBECONFIG] found duplicated context name: %s`. -/
  | duplicated (name : String)
  /-- The error `[GETCONTEXT] cannot find context named %s`. -/
  | cannotFind (name : String)
  /-- Failure of `ioutil.WriteFile` on the given path. -/
  | writeFile (path : String)
  /-- The error `given profile name %s does not exists in %s`. -/
  | profileNotExists (profileName path : String)
  /-- The credential store does not know the profile it is asked to activate. -/
  | unknownProfile (profileName : String)
  /-- Any other error raised inside the credential store. -/
  | credentials (msg : String)
  /-- The variable `missingNewContextName` of the command line tool. -/
  | missingNewContextName
  /-- The variable `duplicatedContextName` of the command line tool. -/
  | duplicatedContextName
  /-- The error `The ID %d does not exists. Run eksdefault ls to get the correct IDs`. -/
  | idNotExists (id : Int)
  deriving DecidableEq, Repr

/-- Run-time panics of the Go runtime. -/
inductive Panic where
  /-- Index out of range: the index and the length of the slice. -/
  | indexOutOfRange (index : Int) (length : Nat)
  /-- Dereference of a nil pointer. -/
  | nilDereference
  deriving DecidableEq, Repr

deriving instance DecidableEq for Except

/-- An `interface{}` field: a decoded YAML value the package never inspects. -/
structure YamlValue where
  text : String
  deriving DecidableEq, Repr

/-- The `context` block of a context entry. -/
structure Context where
  Cluster : String
  User : String
  Namespace : String
  deriving DecidableEq, Repr

/-- One entry of `contexts`. -/
structure KubeContext where
  Name : String
  AWSprofile : String
  Context : Option Context
  deriving DecidableEq, Repr

/-- One entry of `clusters`. -/
structure ClusterEntry where
  Name : String
  Cluster : YamlValue
  deriving DecidableEq, Repr

/-- One entry of `users`. -/
structure UserEntry where
  Name : String
  User : YamlValue
  deriving DecidableEq, Repr

/-- The store: the decoded kube config together with the path it is written to. -/
structure KubeConfig where
  ApiVersion : String
  Kind : String
  Preferences : YamlValue
  Contexts : List KubeContext
  CurrentContext : String
  Clusters : List ClusterEntry
  Users : List UserEntry
  Path : String
  deriving DecidableEq, Repr

/-- The fields of `KubeConfig` that have a YAML key (`Path` is tagged `yaml:"-"`). -/
structure Document where
  ApiVersion : String
  Kind : String
  Preferences : YamlValue
  Contexts : List KubeContext
  CurrentContext : String
  Clusters : List ClusterEntry
  Users : List UserEntry
  deriving DecidableEq, Repr

/-- The bytes of a file, seen through `yaml.Unmarshal` into a `KubeConfig`. -/
inductive FileContent where
  /-- Not YAML at all: the decoder fails before it stores anything. -/
  | malformed (msg : String)
  /-- YAML of the wrong shape: the decoder stores what fits and reports the rest. -/
  | mistyped (doc : Document) (msg : String)
  /-- A YAML mapping that decodes without error. -/
  | document (doc : Document)
  deriving DecidableEq, Repr

/-- The zero value `KubeConfig{}`. -/
def KubeConfig.zero : KubeConfig :=
  { ApiVersion := "", Kind := "", Preferences := ⟨""⟩, Contexts := [], CurrentContext := "",
    Clusters := [], Users := [], Path := "" }

/-- The zero value `KubeContext{}`. -/
def KubeContext.zero : KubeContext :=
  { Name := "", AWSprofile := "", Context := none }

/-- The zero value `Context{}`. -/
def Context.zero : Context :=
  { Cluster := "", User := "", Namespace := "" }

/-- Modelled from the spec: the credential store of package `awsdefault`, which enumerates
profile names, has at most one active profile and is persisted in a file of its own. -/
structure CredentialsFile where
  Path : String
  Profiles : List String
  Active : Option String
  deriving DecidableEq, Repr

/-- The environment variables and the platform the package consults. -/
structure Env where
  GOOS : String
  HOME : String
  USERPROFILE : String
  KUBECONFIG : String
  deriving DecidableEq, Repr

/-- The world outside the process: environment, file system and credential store. -/
structure World where
  env : Env
  /-- Content of each path; `none` when the path cannot be read. -/
  files : String → Option FileContent
  /-- Paths on which `ioutil.WriteFile` fails. -/
  readOnly : String → Bool
  /-- The persisted credential store. -/
  credentials : CredentialsFile
  /-- The error `awsdefault.GetCredentialsFile` fails with, if it fails. -/
  credentialsError : Option Error
  /-- Whether persisting the credential store fails. -/
  credentialsReadOnly : Bool

/-! ## Library functions -/

/-- Go's `<` on strings (lexicographic), in a form the kernel evaluates. -/
def stringLess (a b : String) : Bool :=
  decide (a.toList < b.toList)

/-- The closure `func(i, j int) bool { return k.Contexts[i].Name < k.Contexts[j].Name }`. -/
def less (a b : KubeContext) : Bool :=
  stringLess a.Name b.Name

/-- The function `insertionSort_func` of package `sort`: elements move left while they are
less than their left neighbour, which gives the sorted arrangement that keeps elements with
equal names in their order. -/
def insertionSortFunc (data : List KubeContext) : List KubeContext :=
  data.insertionSort (fun a b => less b a = false)

/-- One round of the shell pass of `quickSort_func`:
`if data.Less(i, i-6) { data.Swap(i, i-6) }`. -/
def shellStep (data : List KubeContext) (i : Nat) : List KubeContext :=
  match data[i]?, data[i - 6]? with
  | some x, some y => if less x y then (data.set i y).set (i - 6) x else data
  | _, _ => data

/-- The shell pass with gap 6 of `quickSort_func`: `for i := a + 6; i < b; i++`. -/
def shellPass (data : List KubeContext) : List KubeContext :=
  (List.range' 6 (data.length - 6)).foldl shellStep data

/-- The call `sort.Slice(k.Contexts, less)`.  Up to 12 elements `quickSort_func` does the shell
pass and then `insertionSort_func`; the shell pass can move an element past another one with
the same name, so the sort is not stable.  Longer slices, which Go sorts with a quicksort that
is not stable either, are sorted by insertion here. -/
def sortSlice (l : List KubeContext) : List KubeContext :=
  if l.length ≤ 12 then insertionSortFunc (shellPass l) else insertionSortFunc l

/-- The library function `sort.Strings`. -/
def sortStrings (l : List String) : List String :=
  l.insertionSort (fun a b => stringLess b a = false)

/-- The constant `os.PathSeparator`. -/
def pathSeparator (goos : String) : String :=
  if goos = "windows" then "\\" else "/"

/-- The library function `filepath.Join` on elements that need no cleaning: the non-empty
elements joined by the separator. -/
def filepathJoin (goos : String) (elems : List String) : String :=
  (pathSeparator goos).intercalate (elems.filter (fun e => e ≠ ""))

/-- The library function `ioutil.ReadFile`. -/
def ReadFile (w : World) (path : String) : Except Error FileContent :=
  match w.files path with
  | none => Except.error (Error.readFile path)
  | some c => Except.ok c

/-- The library function `ioutil.WriteFile`; a failing write leaves the file as it was. -/
def WriteFile (w : World) (path : String) (c : FileContent) : World × Option Error :=
  if w.readOnly path then (w, some (Error.writeFile path))
  else ({ w with files := fun p => if p = path then some c else w.files p }, none)

/-- The call `yaml.Marshal(&k)`. -/
def yamlMarshal (k : KubeConfig) : Document :=
  { ApiVersion := k.ApiVersion, Kind := k.Kind, Preferences := k.Preferences,
    Contexts := k.Contexts, CurrentContext := k.CurrentContext, Clusters := k.Clusters,
    Users := k.Users }

/-- The stores `yaml.Unmarshal(f, &k)` leaves in `k` for a document. -/
def yamlUnmarshal (d : Document) (k : KubeConfig) : KubeConfig :=
  { ApiVersion := d.ApiVersion, Kind := d.Kind, Preferences := d.Preferences,
    Contexts := d.Contexts, CurrentContext := d.CurrentContext, Clusters := d.Clusters,
    Users := d.Users, Path := k.Path }

/-! ## The credential store (collaborator) -/

/-- Modelled from the spec: `awsdefault.GetCredentialsFile` loads the credential store from its
own file and fails with whatever error reading or parsing raises. -/
def GetCredentialsFile (w : World) : Except Error CredentialsFile :=
  match w.credentialsError with
  | some e => Except.error e
  | none => Except.ok w.credentials

/-- Modelled from the spec: `SetDefaultTo` makes the named profile the active one and persists
the credential store; it fails if the name is not among the profile names, and if the store
cannot be persisted. -/
def SetDefaultTo (w : World) (f : CredentialsFile) (name : String) : World × Option Error :=
  if name ∈ f.Profiles then
    if w.credentialsReadOnly then (w, some (Error.writeFile f.Path))
    else ({ w with credentials := { f with Active := some name } }, none)
  else (w, some (Error.unknownProfile name))

/-- Modelled from the spec: `GetProfilesNames` enumerates the profile names. -/
def GetProfilesNames (f : CredentialsFile) : List String :=
  f.Profiles

/-! ## `filehandler.go` -/

/-- The Go function `inList`. -/
def inList (item : String) : List String → Bool
  | [] => false
  | i :: list => if item = i then true else inList item list

/-- The closure `home` of `GetConfigFile`. -/
def home (env : Env) : String :=
  if env.GOOS = "windows" then env.USERPROFILE else env.HOME

/-- The path `GetConfigFile` reads. -/
def configPath (env : Env) : String :=
  let path := filepathJoin env.GOOS [home env, ".kube", "config"]
  if 0 < env.KUBECONFIG.length then env.KUBECONFIG else path

/-- The map `dupl` after the first loop of `GetConfigFile`. -/
def dupl (ctxs : List KubeContext) : String → Nat :=
  ctxs.foldl (fun m ctx => Function.update m ctx.Name (m ctx.Name + 1)) (fun _ => 0)

/-- The second loop of `GetConfigFile`: a key of `dupl` whose count exceeds one.  (Go ranges
over the map in an unspecified order; the embedding reports the first such name.) -/
def findDuplicate (ctxs : List KubeContext) : Option String :=
  (ctxs.map (fun ctx => ctx.Name)).find? (fun d => decide (1 < dupl ctxs d))

/-- The Go function `GetConfigFile`. -/
def GetConfigFile (w : World) : KubeConfig × Option Error :=
  let path := configPath w.env
  let k : KubeConfig := { KubeConfig.zero with Path := path }
  match ReadFile w path with
  | Except.error err => (k, some err)
  | Except.ok (FileContent.malformed msg) => (k, some (Error.unmarshal msg))
  | Except.ok (FileContent.mistyped d msg) => (yamlUnmarshal d k, some (Error.unmarshal msg))
  | Except.ok (FileContent.document d) =>
    let k := yamlUnmarshal d k
    match findDuplicate k.Contexts with
    | some d => (KubeConfig.zero, some (Error.duplicated d))
    | none => ({ k with Contexts := sortSlice k.Contexts }, none)

/-- The Go method `GetContextNames`. -/
def GetContextNames (k : KubeConfig) : List String :=
  sortStrings (k.Contexts.map (fun p => p.Name))

/-- The statement `if p.Context == nil { p.Context = &Context{} }` on the copy `p`. -/
def ensureContext (p : KubeContext) : KubeContext :=
  match p.Context with
  | none => { p with Context := some Context.zero }
  | some _ => p

/-- The loop of `GetContextBy`, started at index `idx`. -/
def getContextLoop (name : String) : List KubeContext → Nat → Option (KubeContext × Nat)
  | [], _ => none
  | p :: rest, idx =>
    if p.Name = name then some (ensureContext p, idx)
    else getContextLoop name rest (idx + 1)

/-- The Go method `GetContextBy`: a copy of the entry, its index, and the error. -/
def GetContextBy (k : KubeConfig) (name : String) : KubeContext × Int × Option Error :=
  match getContextLoop name k.Contexts 0 with
  | some (p, idx) => (p, Int.ofNat idx, none)
  | none => (KubeContext.zero, -1, some (Error.cannotFind name))

/-- The Go method `SaveContexts`.  (`yaml.Marshal` does not fail on the fields of a store.) -/
def SaveContexts (w : World) (k : KubeConfig) : World × KubeConfig × Option Error :=
  let k := { k with Contexts := sortSlice k.Contexts }
  let cnf := FileContent.document (yamlMarshal k)
  match WriteFile w k.Path cnf with
  | (w, err) => (w, k, err)

/-- The Go method `SetContextTo`. -/
def SetContextTo (w : World) (k : KubeConfig) (contextName : String) :
    World × KubeConfig × Option Error :=
  match GetContextBy k contextName with
  | (_, _, some err) => (w, k, some err)
  | (ctx, _, none) =>
    if ctx.AWSprofile.length < 1 then (w, k, some Error.NoProfilSet)
    else
      match GetCredentialsFile w with
      | Except.error err => (w, k, some err)
      | Except.ok awsfile =>
        match SetDefaultTo w awsfile ctx.AWSprofile with
        | (w, some err) => (w, k, some err)
        | (w, none) => SaveContexts w { k with CurrentContext := contextName }

/-- The Go method `AddProfileTo`. -/
def AddProfileTo (w : World) (k : KubeConfig) (contextName profileName : String) :
    World × KubeConfig × Option Error :=
  match GetContextBy k contextName with
  | (_, _, some err) => (w, k, some err)
  | (ctx, idx, none) =>
    match GetCredentialsFile w with
    | Except.error err => (w, k, some err)
    | Except.ok awsfile =>
      if inList profileName (GetProfilesNames awsfile) then
        let ctx := { ctx with AWSprofile := profileName }
        SaveContexts w { k with Contexts := k.Contexts.set idx.toNat ctx }
      else (w, k, some (Error.profileNotExists profileName awsfile.Path))

/-- The Go method `AddNamespaceTo`. -/
def AddNamespaceTo (w : World) (k : KubeConfig) (contextName ns : String) :
    World × KubeConfig × Option Error :=
  match GetContextBy k contextName with
  | (_, _, some err) => (w, k, some err)
  | (ctx, idx, none) =>
    let ctx := { ctx with
      Context := ctx.Context.map (fun c => { c with Namespace := ns }) }
    SaveContexts w { k with Contexts := k.Contexts.set idx.toNat ctx }

/-- The Go method `UnSetDefault`. -/
def UnSetDefault (w : World) (k : KubeConfig) : World × KubeConfig × Option Error :=
  SaveContexts w { k with CurrentContext := "" }

/-! ## `cmd/eksdefault/main.go` -/

/-- The value of a decimal digit, as the loop of `strconv.Atoi` computes it (`ch -= 48`, and
a syntax error if the result exceeds 9). -/
def digitValue (c : Char) : Option Nat :=
  if 48 ≤ c.toNat ∧ c.toNat ≤ 57 then some (c.toNat - 48) else none

/-- The digit loop of `strconv.Atoi`: `n = n*10 + int(ch)`. -/
def parseDigits : List Char → Nat → Option Nat
  | [], n => some n
  | ch :: s, n =>
    match digitValue ch with
    | none => none
    | some d => parseDigits s (n * 10 + d)

/-- The range of Go's `int` on a 64-bit platform. -/
def inIntRange (v : Int) : Option Int :=
  if -(2 : Int) ^ 63 ≤ v ∧ v < (2 : Int) ^ 63 then some v else none

/-- The library function `strconv.Atoi`: an optional sign followed by at least one decimal
digit, the value being in the range of `int`; `none` stands for a non-nil error. -/
def Atoi (s : String) : Option Int :=
  match s.toList with
  | [] => none
  | c :: rest =>
    if c = '-' then
      if rest.length < 1 then none
      else (parseDigits rest 0).bind (fun n => inIntRange (-(n : Int)))
    else if c = '+' then
      if rest.length < 1 then none
      else (parseDigits rest 0).bind (fun n => inIntRange (n : Int))
    else (parseDigits (c :: rest) 0).bind (fun n => inIntRange (n : Int))

/-- The Go index expression `s[i]` on a slice: a run-time panic outside `0 ≤ i < len(s)`. -/
def sliceIndex {α : Type} (s : List α) (i : Int) : Except Panic α :=
  if 0 ≤ i then
    match s[i.toNat]? with
    | some a => Except.ok a
    | none => Except.error (Panic.indexOutOfRange i s.length)
  else Except.error (Panic.indexOutOfRange i s.length)

/-- The Go function `idToName`. -/
def idToName (str : String) (file : KubeConfig) : Except Panic (String × Option Error) :=
  match Atoi str with
  | some id =>
    if (file.Contexts.length : Int) < id then Except.ok ("", some (Error.idNotExists id))
    else
      match sliceIndex file.Contexts id with
      | Except.error p => Except.error p
      | Except.ok c => Except.ok (c.Name, none)
  | none => Except.ok (str, none)

/-- The Go function `namedExists`. -/
def namedExists (name : String) (file : KubeConfig) : Bool :=
  inList name (GetContextNames file)

/-- The part of `cli.Context` the commands read: the positional arguments and the values of
the string flags `user`, `namespace`, `cluster` and `profile` (empty when not given). -/
structure CliContext where
  Args : List String
  user : String
  ns : String
  cluster : String
  profile : String
  deriving DecidableEq, Repr

/-- The closure `overwrite` of `copyContext`. -/
def overwrite (newer current : String) : String :=
  if 0 < newer.length then newer else current

/-- The action of the command `copy` built by the Go function `copyContext`. -/
def copyContext (w : World) (file : KubeConfig) (c : CliContext) :
    World × KubeConfig × Option Error :=
  if c.Args.length < 1 then (w, file, some Error.missingNewContextName)
  else
    let name := c.Args.headD ""
    if namedExists name file then (w, file, some Error.duplicatedContextName)
    else
      match GetContextBy file file.CurrentContext with
      | (_, _, some err) => (w, file, some err)
      | (cc, _, none) =>
        let block := cc.Context.getD Context.zero
        let ctx : KubeContext :=
          { Name := name,
            AWSprofile := overwrite c.profile cc.AWSprofile,
            Context := some
              { User := overwrite c.user block.User,
                Namespace := overwrite c.ns block.Namespace,
                Cluster := overwrite c.cluster block.Cluster } }
        SaveContexts w { file with Contexts := file.Contexts ++ [ctx] }

/-- The action of the command `new` built by the Go function `addContext`. -/
def addContext (w : World) (file : KubeConfig) (c : CliContext) :
    World × KubeConfig × Option Error :=
  if c.Args.length < 1 then (w, file, some Error.missingNewContextName)
  else
    let name := c.Args.headD ""
    if namedExists name file then (w, file, some Error.duplicatedContextName)
    else
      let ctx : KubeContext :=
        { Name := name,
          AWSprofile := c.profile,
          Context := some { User := c.user, Namespace := c.ns, Cluster := c.cluster } }
      SaveContexts w { file with Contexts := file.Contexts ++ [ctx] }

/-! ## Predicates used to state the properties -/

/-- The `AWSprofile` of the context that the file at `path` names as its current context, when
the file decodes and the name resolves (first entry with that name). -/
def diskProfile (w : World) (path : String) : Option String :=
  match w.files path with
  | some (FileContent.document d) =>
    (d.Contexts.find? (fun c => decide (c.Name = d.CurrentContext))).map (fun c => c.AWSprofile)
  | _ => none

/-- The two files agree: the credential store's active profile is the `AWSprofile` of the
context named by the `current-context` of the file at `path`. -/
def filesAgree (w : World) (path : String) : Bool :=
  match diskProfile w path with
  | some p => decide (w.credentials.Active = some p)
  | none => false

/-- The five fields by which contexts are compared: name, cluster, user, namespace and
`AWSprofile`, an absent `context` block counting as one with empty cluster, user and
namespace. -/
def contextFields (c : KubeContext) : String × String × String × String × String :=
  match c.Context with
  | none => (c.Name, "", "", "", c.AWSprofile)
  | some b => (c.Name, b.Cluster, b.User, b.Namespace, c.AWSprofile)

/-! ## Sample data, after the fixtures of the package tests -/

/-- An environment with `HOME=testdata` and no `KUBECONFIG`. -/
def sampleEnv : Env :=
  { GOOS := "linux", HOME := "testdata", USERPROFILE := "", KUBECONFIG := "" }

/-- A document around the given contexts and current context. -/
def sampleDocument (ctxs : List KubeContext) (current : String) : Document :=
  { ApiVersion := "v1", Kind := "Config", Preferences := ⟨"{}"⟩, Contexts := ctxs,
    CurrentContext := current, Clusters := [], Users := [] }

/-- A credential store with the profiles `dev` and `live`. -/
def sampleCredentials (active : Option String) : CredentialsFile :=
  { Path := "testdata/.aws/credentials", Profiles := ["dev", "live"], Active := active }

/-- A world whose only file is the kube config under `HOME`, all files being writable. -/
def sampleWorld (content : FileContent) (active : Option String) : World :=
  { env := sampleEnv,
    files := fun p => if p = "testdata/.kube/config" then some content else none,
    readOnly := fun _ => false,
    credentials := sampleCredentials active,
    credentialsError := none,
    credentialsReadOnly := false }

/-- Two entries that share the name `cntxA`. -/
def duplicatedContexts : List KubeContext :=
  [ { Name := "cntxA", AWSprofile := "live", Context := none },
    { Name := "cntxB", AWSprofile := "live", Context := none },
    { Name := "cntxA", AWSprofile := "dev", Context := none } ]

/-- The contexts of the store used by `TestKubeConfig_SetContextTo`. -/
def sampleContexts : List KubeContext :=
  [ { Name := "cntxA", AWSprofile := "live", Context := none },
    { Name := "cntxC", AWSprofile := "dev", Context := none },
    { Name := "cntxB", AWSprofile := "live", Context := none },
    { Name := "minikube", AWSprofile := "", Context := none } ]

/-- The store used by `TestKubeConfig_SetContextTo`: current context `cntxB`. -/
def sampleStore : KubeConfig :=
  { KubeConfig.zero with
    Contexts := sampleContexts, CurrentContext := "cntxB", Path := "testdata/.kube/config" }

/-- The content of `testdata/.kube/config` before the tests run. -/
def sampleContent : FileContent :=
  FileContent.document (sampleDocument (sortSlice sampleContexts) "cntxB")

/-- The store of the test case `4negative`: `cntxA` refers to a profile the credential store
does not have. -/
def unknownProfileStore : KubeConfig :=
  { sampleStore with
    Contexts :=
      [ { Name := "cntxA", AWSprofile := "unknown", Context := none },
        { Name := "cntxC", AWSprofile := "dev", Context := none },
        { Name := "cntxB", AWSprofile := "live", Context := none },
        { Name := "minikube", AWSprofile := "", Context := none } ] }

/-- A world like `sampleWorld` in which the kube config cannot be written. -/
def readOnlyWorld (content : FileContent) (active : Option String) : World :=
  { sampleWorld content active with readOnly := fun p => decide (p = "testdata/.kube/config") }

/-! ## The table listing of `cmd/eksdefault/main.go` -/

/-- One row of the table of the command `list`: the ID, the marker of the current context and
the fields of the context.  The selectors `c.Context.Cluster`, `c.Context.User` and
`c.Context.Namespace` go through the embedded pointer and panic when it is nil. -/
def getContextsRow (curr : String) (idx : Nat) (c : KubeContext) : Except Panic (List String) :=
  let p := c.AWSprofile
  let cc := if c.Name = curr then "*" else ""
  match c.Context with
  | none => Except.error Panic.nilDereference
  | some block =>
    Except.ok [toString idx, cc, c.Name, p, block.Cluster, block.User, block.Namespace]

/-- The loop `for idx, c := range file.Contexts` of the command `list`, started at index `idx`
with the rows collected so far. -/
def getContextsLoop (curr : String) :
    List KubeContext → Nat → List (List String) → Except Panic (List (List String))
  | [], _, tbl => Except.ok tbl
  | c :: rest, idx, tbl =>
    match getContextsRow curr idx c with
    | Except.error p => Except.error p
    | Except.ok row => getContextsLoop curr rest (idx + 1) (tbl ++ [row])

/-- The table `tbl` that the action of the command `list`, built by the Go function
`getContexts`, hands to `printTabbed` when the flag `short` is not set. -/
def getContexts (file : KubeConfig) : Except Panic (List (List String)) :=
  getContextsLoop file.CurrentContext file.Contexts 0 []

/-! ## `cmd/eksdefault-gtk3/main.go` -/

/-- The constant `noContext`. -/
def noContext : String := "--No Current Context--"

/-- The struct `kubeConfig` of the popup. -/
structure kubeConfig where
  curr : String
  currIdx : Int
  list : List String
  file : KubeConfig
  deriving DecidableEq, Repr

/-- The Go function `fetchContexts`: `none` stands for the nil pointer returned with an
error. -/
def fetchContexts (w : World) : Option kubeConfig × Option Error :=
  match GetConfigFile w with
  | (_, some err) => (none, some err)
  | (file, none) =>
    let list := GetContextNames file ++ [noContext]
    match GetContextBy file file.CurrentContext with
    | (_, currIdx, err) =>
      let p : kubeConfig := { curr := "", currIdx := currIdx, list := list, file := file }
      let p : kubeConfig :=
        if err.isSome ∨ p.currIdx = -2 then
          { p with curr := noContext, currIdx := (p.list.length : Int) - 1 }
        else p
      (some { p with curr := file.CurrentContext }, none)

/-- The passthrough fields and the path of two stores are the same. -/
def samePassthrough (a b : KubeConfig) : Prop :=
  a.ApiVersion = b.ApiVersion ∧ a.Kind = b.Kind ∧ a.Preferences = b.Preferences ∧
    a.Clusters = b.Clusters ∧ a.Users = b.Users ∧ a.Path = b.Path

/-- The file at the path of the store holds a document with the passthrough fields of the
store. -/
def passthroughWritten (w : World) (k : KubeConfig) : Prop :=
  ∃ d, w.files k.Path = some (FileContent.document d) ∧
    d.ApiVersion = k.ApiVersion ∧ d.Kind = k.Kind ∧ d.Preferences = k.Preferences ∧
    d.Clusters = k.Clusters ∧ d.Users = k.Users

/-- A kube config with an entry that has no `context` block and a current context that names
no entry. -/
def danglingContent : FileContent :=
  FileContent.document (sampleDocument
    [ { Name := "cntxA", AWSprofile := "live",
        Context := some { Cluster := "clstrA", User := "userA", Namespace := "aaaaa" } },
      { Name := "bare", AWSprofile := "", Context := none } ] "gone")

/-- A kube config with an entry whose name is empty. -/
def emptyNameContent : FileContent :=
  FileContent.document (sampleDocument
    [ { Name := "", AWSprofile := "live",
        Context := some { Cluster := "clstrA", User := "userA", Namespace := "" } } ] "")

/-- A kube config in which every entry has a `context` block, after the first rows of the
table of `Test_runMain`. -/
def tableContent : FileContent :=
  FileContent.document (sampleDocument
    [ { Name := "cntxB", AWSprofile := "live",
        Context := some { Cluster := "clstrB", User := "userB", Namespace := "bbbbb" } },
      { Name := "cntxA", AWSprofile := "live",
        Context := some { Cluster := "clstrA", User := "userA", Namespace := "aaaaa" } } ]
    "cntxB")

/-- A kube config whose `current-context` is empty. -/
def unsetContent : FileContent :=
  FileContent.document (sampleDocument
    [ { Name := "cntxA", AWSprofile := "live",
        Context := some { Cluster := "clstrA", User := "userA", Namespace := "aaaaa" } } ] "")

/-- A store, built in memory, in which the name `a` occurs twice: first with the profile
`live`, then without a profile. -/
def repeatedNameStore : KubeConfig :=
  { KubeConfig.zero with
    Contexts :=
      [ { Name := "b", AWSprofile := "dev", Context := none },
        { Name := "a", AWSprofile := "live", Context := none },
        { Name := "c", AWSprofile := "dev", Context := none },
        { Name := "d", AWSprofile := "dev", Context := none },
        { Name := "e", AWSprofile := "dev", Context := none },
        { Name := "f", AWSprofile := "dev", Context := none },
        { Name := "a", AWSprofile := "", Context := none } ],
    CurrentContext := "b", Path := "testdata/.kube/config" }

/-! ## Auxiliary lemmas -/

theorem stringLess_iff (a b : String) : stringLess a b = true ↔ a < b := by
  unfold stringLess
  rw [decide_eq_true_iff, String.lt_iff_toList_lt]

theorem stringLess_false_iff (a b : String) : stringLess a b = false ↔ b ≤ a := by
  rw [← not_lt, ← stringLess_iff]
  cases stringLess a b <;> simp

theorem dupl_foldl (ctxs : List KubeContext) (m : String → Nat) (n : String) :
    ctxs.foldl (fun m ctx => Function.update m ctx.Name (m ctx.Name + 1)) m n
      = m n + (ctxs.map (fun ctx => ctx.Name)).count n := by
  induction ctxs generalizing m with
  | nil => simp
  | cons c cs ih =>
    rw [List.foldl_cons, ih, List.map_cons, List.count_cons]
    by_cases h : c.Name = n
    · subst h
      simp [Function.update_same]
      omega
    · have h2 : n ≠ c.Name := fun e => h e.symm
      simp [Function.update_noteq h2, h]

theorem dupl_eq_count (ctxs : List KubeContext) (n : String) :
    dupl ctxs n = (ctxs.map (fun ctx => ctx.Name)).count n := by
  unfold dupl
  rw [dupl_foldl]
  simp

theorem findDuplicate_eq_none_iff (ctxs : List KubeContext) :
    findDuplicate ctxs = none ↔ (ctxs.map (fun ctx => ctx.Name)).Nodup := by
  unfold findDuplicate
  rw [List.find?_eq_none, List.nodup_iff_count_le_one]
  constructor
  · intro h a
    by_cases ha : a ∈ ctxs.map (fun ctx => ctx.Name)
    · have := h a ha
      rw [dupl_eq_count] at this
      simpa using this
    · rw [List.count_eq_zero_of_not_mem ha]
      omega
  · intro h a _
    rw [dupl_eq_count]
    simpa using h a

theorem findDuplicate_some (ctxs : List KubeContext) (n : String)
    (h : findDuplicate ctxs = some n) : 1 < (ctxs.map (fun ctx => ctx.Name)).count n := by
  unfold findDuplicate at h
  have := List.find?_some h
  rw [dupl_eq_count] at this
  simpa using this

theorem lessRel_total : IsTotal KubeContext (fun a b => less b a = false) :=
  ⟨fun a b => by
    unfold less
    rw [stringLess_false_iff, stringLess_false_iff]
    exact le_total _ _⟩

theorem lessRel_trans : IsTrans KubeContext (fun a b => less b a = false) :=
  ⟨fun a b c => by
    unfold less
    rw [stringLess_false_iff, stringLess_false_iff, stringLess_false_iff]
    exact le_trans⟩

theorem cons_set_perm (a x : KubeContext) : ∀ (t : List KubeContext) (i : Nat),
    t[i]? = some x → (x :: t.set i a).Perm (a :: t) := by
  intro t
  induction t with
  | nil => intro i h; simp at h
  | cons b t ih =>
    intro i h
    cases i with
    | zero =>
      simp only [List.getElem?_cons_zero, Option.some.injEq] at h
      subst h
      simp only [List.set_cons_zero]
      exact List.Perm.swap _ _ _
    | succ i =>
      simp only [List.getElem?_cons_succ] at h
      simp only [List.set_cons_succ]
      exact (List.Perm.swap b x _).trans (((ih i h).cons b).trans (List.Perm.swap a b _))

theorem swap_perm : ∀ (data : List KubeContext) (i j : Nat) (x y : KubeContext), j < i →
    data[i]? = some x → data[j]? = some y → ((data.set i y).set j x).Perm data := by
  intro data
  induction data with
  | nil => intro i j x y _ h; simp at h
  | cons a t ih =>
    intro i j x y hji hx hy
    cases i with
    | zero => omega
    | succ i =>
      simp only [List.getElem?_cons_succ] at hx
      cases j with
      | zero =>
        simp only [List.getElem?_cons_zero, Option.some.injEq] at hy
        subst hy
        simp only [List.set_cons_succ, List.set_cons_zero]
        exact cons_set_perm _ x t i hx
      | succ j =>
        simp only [List.getElem?_cons_succ] at hy
        simp only [List.set_cons_succ]
        exact (ih i j x y (by omega) hx hy).cons a

theorem shellStep_perm (data : List KubeContext) (i : Nat) (hi : 6 ≤ i) :
    (shellStep data i).Perm data := by
  unfold shellStep
  split
  · rename_i x y hx hy
    split
    · exact swap_perm data i (i - 6) x y (by omega) hx hy
    · exact List.Perm.refl _
  · exact List.Perm.refl _

theorem shellFold_perm : ∀ (is : List Nat) (data : List KubeContext), (∀ i ∈ is, 6 ≤ i) →
    (is.foldl shellStep data).Perm data := by
  intro is
  induction is with
  | nil => intro data _; exact List.Perm.refl _
  | cons i is ih =>
    intro data h
    rw [List.foldl_cons]
    exact (ih _ (fun j hj => h j (List.mem_cons_of_mem _ hj))).trans
      (shellStep_perm data i (h i (List.mem_cons_self _ _)))

theorem range_ge (n : Nat) : ∀ i ∈ List.range' 6 n, 6 ≤ i := by
  intro i hi
  exact (List.mem_range'_1.1 hi).1

theorem shellPass_perm (data : List KubeContext) : (shellPass data).Perm data :=
  shellFold_perm _ data (range_ge _)

theorem shellStep_of_sorted (data : List KubeContext)
    (h : data.Pairwise (fun a b => a.Name ≤ b.Name)) (i : Nat) (hi : 6 ≤ i) :
    shellStep data i = data := by
  unfold shellStep
  split
  · rename_i x y hx hy
    obtain ⟨hil, hix⟩ := List.getElem?_eq_some.1 hx
    obtain ⟨hjl, hjy⟩ := List.getElem?_eq_some.1 hy
    have hle := List.pairwise_iff_getElem.1 h (i - 6) i hjl hil (by omega)
    rw [hix, hjy] at hle
    have hnot : less x y = false := by
      unfold less
      exact (stringLess_false_iff _ _).2 hle
    rw [hnot]
    rfl
  · rfl

theorem shellFold_of_sorted : ∀ (is : List Nat) (data : List KubeContext),
    data.Pairwise (fun a b => a.Name ≤ b.Name) → (∀ i ∈ is, 6 ≤ i) →
    is.foldl shellStep data = data := by
  intro is
  induction is with
  | nil => intro data _ _; rfl
  | cons i is ih =>
    intro data hs h
    rw [List.foldl_cons, shellStep_of_sorted data hs i (h i (List.mem_cons_self _ _))]
    exact ih data hs (fun j hj => h j (List.mem_cons_of_mem _ hj))

theorem shellPass_of_sorted (data : List KubeContext)
    (h : data.Pairwise (fun a b => a.Name ≤ b.Name)) : shellPass data = data :=
  shellFold_of_sorted _ data h (range_ge _)

theorem insertionSortFunc_perm (l : List KubeContext) : (insertionSortFunc l).Perm l :=
  List.perm_insertionSort _ l

theorem insertionSortFunc_sorted (l : List KubeContext) :
    (insertionSortFunc l).Pairwise (fun a b => a.Name ≤ b.Name) := by
  haveI := lessRel_total
  haveI := lessRel_trans
  have h := List.sorted_insertionSort (fun a b : KubeContext => less b a = false) l
  unfold List.Sorted at h
  refine h.imp ?_
  intro a b hab
  unfold less at hab
  exact (stringLess_false_iff _ _).1 hab

theorem insertionSortFunc_of_sorted (l : List KubeContext)
    (h : l.Pairwise (fun a b => a.Name ≤ b.Name)) : insertionSortFunc l = l := by
  apply List.Sorted.insertionSort_eq
  unfold List.Sorted
  refine h.imp ?_
  intro a b hab
  unfold less
  exact (stringLess_false_iff _ _).2 hab

theorem sortSlice_perm (l : List KubeContext) : (sortSlice l).Perm l := by
  unfold sortSlice
  split
  · exact (insertionSortFunc_perm _).trans (shellPass_perm l)
  · exact insertionSortFunc_perm l

theorem sortSlice_sorted (l : List KubeContext) :
    (sortSlice l).Pairwise (fun a b => a.Name ≤ b.Name) := by
  unfold sortSlice
  split
  · exact insertionSortFunc_sorted _
  · exact insertionSortFunc_sorted _

theorem sortSlice_of_sorted (l : List KubeContext)
    (h : l.Pairwise (fun a b => a.Name ≤ b.Name)) : sortSlice l = l := by
  unfold sortSlice
  split
  · rw [shellPass_of_sorted l h]
    exact insertionSortFunc_of_sorted l h
  · exact insertionSortFunc_of_sorted l h

theorem sortSlice_idem (l : List KubeContext) : sortSlice (sortSlice l) = sortSlice l :=
  sortSlice_of_sorted _ (sortSlice_sorted l)

theorem sortSlice_names_perm (l : List KubeContext) :
    ((sortSlice l).map (fun c => c.Name)).Perm (l.map (fun c => c.Name)) :=
  (sortSlice_perm l).map _

theorem sortSlice_strict (l : List KubeContext) (h : (l.map (fun c => c.Name)).Nodup) :
    (sortSlice l).Pairwise (fun a b => a.Name < b.Name) := by
  have hs := sortSlice_sorted l
  have hn : ((sortSlice l).map (fun c => c.Name)).Nodup :=
    (sortSlice_names_perm l).nodup_iff.2 h
  have hn2 : (sortSlice l).Pairwise (fun a b => a.Name ≠ b.Name) := by
    unfold List.Nodup at hn
    exact (List.pairwise_map.1 hn)
  exact (hs.and hn2).imp (fun ⟨h1, h2⟩ => lt_of_le_of_ne h1 h2)

theorem GetConfigFile_document (w : World) (d : Document)
    (h : w.files (configPath w.env) = some (FileContent.document d)) :
    GetConfigFile w =
      match findDuplicate d.Contexts with
      | some n => (KubeConfig.zero, some (Error.duplicated n))
      | none =>
        ({ yamlUnmarshal d { KubeConfig.zero with Path := configPath w.env } with
            Contexts := sortSlice d.Contexts }, none) := by
  unfold GetConfigFile ReadFile
  simp only [h]
  rfl

/-- C1: when the content of the config file is readable and parseable and some context name
occurs in it more than once, `GetConfigFile` returns a non-nil error, which names a context
name that occurs more than once, together with a store whose `Contexts` list is empty. -/
theorem GetConfigFile_duplicate (w : World) (d : Document) (name : String)
    (hread : w.files (configPath w.env) = some (FileContent.document d))
    (hdup : 1 < (d.Contexts.map (fun c => c.Name)).count name) :
    (GetConfigFile w).2 ≠ none ∧
      (∃ n, 1 < (d.Contexts.map (fun c => c.Name)).count n ∧
        (GetConfigFile w).2 = some (Error.duplicated n)) ∧
      (GetConfigFile w).1.Contexts = [] := by
  rw [GetConfigFile_document w d hread]
  cases hf : findDuplicate d.Contexts with
  | none =>
    have hn := (findDuplicate_eq_none_iff d.Contexts).1 hf
    have := List.nodup_iff_count_le_one.1 hn name
    omega
  | some n =>
    refine ⟨by simp, ⟨n, findDuplicate_some _ _ hf, rfl⟩, rfl⟩

theorem GetConfigFile_duplicate_witness :
    (sampleWorld (FileContent.document (sampleDocument duplicatedContexts "cntxB")) none).files
        (configPath sampleEnv)
        = some (FileContent.document (sampleDocument duplicatedContexts "cntxB")) ∧
      1 < (duplicatedContexts.map (fun c => c.Name)).count "cntxA" ∧
      (GetConfigFile
          (sampleWorld (FileContent.document (sampleDocument duplicatedContexts "cntxB")) none)).2
        ≠ none ∧
      (GetConfigFile
          (sampleWorld (FileContent.document (sampleDocument duplicatedContexts "cntxB")) none)).1.Contexts
        = [] :=
  have h := GetConfigFile_duplicate
    (sampleWorld (FileContent.document (sampleDocument duplicatedContexts "cntxB")) none)
    (sampleDocument duplicatedContexts "cntxB") "cntxA" (by decide) (by decide)
  ⟨by decide, by decide, h.1, h.2.2⟩

theorem length_lt_one_iff (s : String) : s.length < 1 ↔ s = "" := by
  constructor
  · intro h
    have h0 : s.data.length = 0 := by
      have : s.length = s.data.length := rfl
      omega
    have h1 : s.data = [] := List.length_eq_zero.1 h0
    exact String.ext h1
  · intro h
    subst h
    decide

theorem ensureContext_Name (p : KubeContext) : (ensureContext p).Name = p.Name := by
  unfold ensureContext
  cases p.Context <;> rfl

theorem ensureContext_AWSprofile (p : KubeContext) :
    (ensureContext p).AWSprofile = p.AWSprofile := by
  unfold ensureContext
  cases p.Context <;> rfl

theorem getContextLoop_fst (name : String) (l : List KubeContext) (i : Nat) :
    (getContextLoop name l i).map Prod.fst
      = (l.find? (fun c => decide (c.Name = name))).map ensureContext := by
  induction l generalizing i with
  | nil => rfl
  | cons p rest ih =>
    unfold getContextLoop
    by_cases h : p.Name = name
    · simp [h]
    · simp [h, ih]

theorem GetContextBy_found (k : KubeConfig) (name : String) (c : KubeContext)
    (h : k.Contexts.find? (fun c => decide (c.Name = name)) = some c) :
    ∃ idx, GetContextBy k name = (ensureContext c, idx, none) := by
  have hl := getContextLoop_fst name k.Contexts 0
  rw [h] at hl
  unfold GetContextBy
  cases hg : getContextLoop name k.Contexts 0 with
  | none => rw [hg] at hl; simp at hl
  | some r =>
    obtain ⟨p, idx⟩ := r
    rw [hg] at hl
    simp at hl
    exact ⟨Int.ofNat idx, by simp [hl]⟩

theorem GetContextBy_missing (k : KubeConfig) (name : String)
    (h : ∀ c ∈ k.Contexts, c.Name ≠ name) :
    GetContextBy k name = (KubeContext.zero, -1, some (Error.cannotFind name)) := by
  have hf : k.Contexts.find? (fun c => decide (c.Name = name)) = none := by
    rw [List.find?_eq_none]
    intro c hc
    simpa using h c hc
  have hl := getContextLoop_fst name k.Contexts 0
  rw [hf] at hl
  unfold GetContextBy
  cases hg : getContextLoop name k.Contexts 0 with
  | none => rfl
  | some r => rw [hg] at hl; simp at hl

theorem SetContextTo_found (w : World) (k : KubeConfig) (name : String) (c : KubeContext)
    (h : k.Contexts.find? (fun c => decide (c.Name = name)) = some c) :
    SetContextTo w k name =
      if c.AWSprofile.length < 1 then (w, k, some Error.NoProfilSet)
      else
        match GetCredentialsFile w with
        | Except.error err => (w, k, some err)
        | Except.ok awsfile =>
          match SetDefaultTo w awsfile c.AWSprofile with
          | (w, some err) => (w, k, some err)
          | (w, none) => SaveContexts w { k with CurrentContext := name } := by
  obtain ⟨idx, hg⟩ := GetContextBy_found k name c h
  unfold SetContextTo
  rw [hg]
  simp only [ensureContext_AWSprofile]

theorem SetDefaultTo_failure (w : World) (f : CredentialsFile) (name : String) (e : Error)
    (h : (SetDefaultTo w f name).2 = some e) : SetDefaultTo w f name = (w, some e) := by
  unfold SetDefaultTo at h ⊢
  by_cases hk : name ∈ f.Profiles
  · by_cases hr : w.credentialsReadOnly = true
    · rw [if_pos hk, if_pos hr] at h ⊢
      cases h
      rfl
    · rw [if_pos hk, if_neg hr] at h
      cases h
  · rw [if_neg hk] at h ⊢
    cases h
    rfl

theorem SetContextTo_switched (w : World) (k : KubeConfig) (name : String) (c : KubeContext)
    (hctx : k.Contexts.find? (fun c => decide (c.Name = name)) = some c)
    (hprofile : c.AWSprofile ≠ "")
    (hload : w.credentialsError = none)
    (hknown : c.AWSprofile ∈ w.credentials.Profiles)
    (hcred : w.credentialsReadOnly = false)
    (hfile : w.readOnly k.Path = false) :
    SetContextTo w k name =
      ({ w with
          credentials := { w.credentials with Active := some c.AWSprofile },
          files := fun p =>
            if p = k.Path then
              some (FileContent.document (yamlMarshal
                { k with CurrentContext := name, Contexts := sortSlice k.Contexts }))
            else w.files p },
        { k with CurrentContext := name, Contexts := sortSlice k.Contexts }, none) := by
  rw [SetContextTo_found w k name c hctx]
  have hlen : ¬ c.AWSprofile.length < 1 := fun h => hprofile ((length_lt_one_iff _).1 h)
  rw [if_neg hlen]
  simp [GetCredentialsFile, hload, SetDefaultTo, hknown, hcred, SaveContexts, WriteFile, hfile]

/-- C2: when the name resolves to a context (the first entry with that name) whose `AWSprofile`
is non-empty, the credential store loads and contains that profile, and both files can be
written, `SetContextTo` returns nil, the store's `CurrentContext` is the name both in memory
and in the file written at `Path`, and the credential store's active profile is the context's
`AWSprofile`. -/
theorem SetContextTo_success (w : World) (k : KubeConfig) (contextName : String)
    (c : KubeContext)
    (hctx : k.Contexts.find? (fun c => decide (c.Name = contextName)) = some c)
    (hprofile : c.AWSprofile ≠ "")
    (hload : w.credentialsError = none)
    (hknown : c.AWSprofile ∈ w.credentials.Profiles)
    (hcred : w.credentialsReadOnly = false)
    (hfile : w.readOnly k.Path = false) :
    (SetContextTo w k contextName).2.2 = none ∧
      (SetContextTo w k contextName).2.1.CurrentContext = contextName ∧
      (∃ d, (SetContextTo w k contextName).1.files k.Path = some (FileContent.document d) ∧
        d.CurrentContext = contextName) ∧
      (SetContextTo w k contextName).1.credentials.Active = some c.AWSprofile := by
  rw [SetContextTo_switched w k contextName c hctx hprofile hload hknown hcred hfile]
  refine ⟨rfl, rfl, ⟨_, if_pos rfl, rfl⟩, rfl⟩

theorem SetContextTo_success_witness :
    sampleStore.Contexts.find? (fun c => decide (c.Name = "cntxA"))
        = some { Name := "cntxA", AWSprofile := "live", Context := none } ∧
      (SetContextTo (sampleWorld sampleContent none) sampleStore "cntxA").2.2 = none ∧
      (SetContextTo (sampleWorld sampleContent none) sampleStore "cntxA").2.1.CurrentContext
        = "cntxA" ∧
      (SetContextTo (sampleWorld sampleContent none) sampleStore "cntxA").1.credentials.Active
        = some "live" :=
  have h := SetContextTo_success (sampleWorld sampleContent none) sampleStore "cntxA"
    { Name := "cntxA", AWSprofile := "live", Context := none }
    (by decide) (by decide) (by decide) (by decide) (by decide) (by decide)
  ⟨by decide, h.1, h.2.1, h.2.2.2⟩

/-- C3: when the name resolves to a context with a non-empty `AWSprofile` and either the
credential store cannot be loaded, or setting its active profile fails (unknown profile or
credential write error), `SetContextTo` returns that error, the store (in particular its
`CurrentContext`) is as before the call, and no file is written. -/
theorem SetContextTo_credentials_failure (w : World) (k : KubeConfig) (contextName : String)
    (c : KubeContext) (e : Error)
    (hctx : k.Contexts.find? (fun c => decide (c.Name = contextName)) = some c)
    (hprofile : c.AWSprofile ≠ "")
    (hfail : GetCredentialsFile w = Except.error e ∨
      ∃ awsfile, GetCredentialsFile w = Except.ok awsfile ∧
        (SetDefaultTo w awsfile c.AWSprofile).2 = some e) :
    (SetContextTo w k contextName).2.2 = some e ∧
      (SetContextTo w k contextName).2.1.CurrentContext = k.CurrentContext ∧
      (SetContextTo w k contextName).2.1 = k ∧
      (SetContextTo w k contextName).1.files = w.files := by
  rw [SetContextTo_found w k contextName c hctx]
  have hlen : ¬ c.AWSprofile.length < 1 := fun h => hprofile ((length_lt_one_iff _).1 h)
  rw [if_neg hlen]
  rcases hfail with h | ⟨awsfile, h, hs⟩
  · rw [h]
    exact ⟨rfl, rfl, rfl, rfl⟩
  · rw [h]
    have hs2 := SetDefaultTo_failure w awsfile c.AWSprofile e hs
    simp only [hs2]
    exact ⟨trivial, trivial, trivial, trivial⟩

/-- C4: when the name resolves to a context whose `AWSprofile` is empty, `SetContextTo`
returns exactly `NoProfilSet` and leaves the store, the files and the credential store as they
were. -/
theorem SetContextTo_no_profile (w : World) (k : KubeConfig) (contextName : String)
    (c : KubeContext)
    (hctx : k.Contexts.find? (fun c => decide (c.Name = contextName)) = some c)
    (hprofile : c.AWSprofile = "") :
    (SetContextTo w k contextName).2.2 = some Error.NoProfilSet ∧
      (SetContextTo w k contextName).2.1 = k ∧
      (SetContextTo w k contextName).1.files = w.files ∧
      (SetContextTo w k contextName).1.credentials = w.credentials := by
  rw [SetContextTo_found w k contextName c hctx]
  rw [if_pos ((length_lt_one_iff _).2 hprofile)]
  exact ⟨rfl, rfl, rfl, rfl⟩

/-- C5: when no context of the store has the given name, `SetContextTo` returns an error (the
lookup error), the store (in particular its `CurrentContext`) is as before the call, no file
is written and the credential store keeps its active profile. -/
theorem SetContextTo_unknown_context (w : World) (k : KubeConfig) (contextName : String)
    (hctx : ∀ c ∈ k.Contexts, c.Name ≠ contextName) :
    (SetContextTo w k contextName).2.2 = some (Error.cannotFind contextName) ∧
      (SetContextTo w k contextName).2.1.CurrentContext = k.CurrentContext ∧
      (SetContextTo w k contextName).2.1 = k ∧
      (SetContextTo w k contextName).1.files = w.files ∧
      (SetContextTo w k contextName).1.credentials.Active = w.credentials.Active := by
  unfold SetContextTo
  rw [GetContextBy_missing k contextName hctx]
  exact ⟨rfl, rfl, rfl, rfl, rfl⟩

theorem SetContextTo_credentials_failure_witness :
    unknownProfileStore.Contexts.find? (fun c => decide (c.Name = "cntxA"))
        = some { Name := "cntxA", AWSprofile := "unknown", Context := none } ∧
      (SetDefaultTo (sampleWorld sampleContent none) (sampleCredentials none) "unknown").2
        = some (Error.unknownProfile "unknown") ∧
      (SetContextTo (sampleWorld sampleContent none) unknownProfileStore "cntxA").2.2
        = some (Error.unknownProfile "unknown") ∧
      (SetContextTo (sampleWorld sampleContent none) unknownProfileStore "cntxA").2.1.CurrentContext
        = "cntxB" ∧
      (SetContextTo (sampleWorld sampleContent none) unknownProfileStore "cntxA").1.files
        = (sampleWorld sampleContent none).files :=
  have h := SetContextTo_credentials_failure (sampleWorld sampleContent none)
    unknownProfileStore "cntxA" { Name := "cntxA", AWSprofile := "unknown", Context := none }
    (Error.unknownProfile "unknown") (by decide) (by decide)
    (Or.inr ⟨sampleCredentials none, rfl, by decide⟩)
  ⟨by decide, by decide, h.1, h.2.1, h.2.2.2⟩

theorem SetContextTo_no_profile_witness :
    sampleStore.Contexts.find? (fun c => decide (c.Name = "minikube"))
        = some { Name := "minikube", AWSprofile := "", Context := none } ∧
      (SetContextTo (sampleWorld sampleContent (some "dev")) sampleStore "minikube").2.2
        = some Error.NoProfilSet ∧
      (SetContextTo (sampleWorld sampleContent (some "dev")) sampleStore "minikube").2.1
        = sampleStore ∧
      (SetContextTo (sampleWorld sampleContent (some "dev")) sampleStore "minikube").1.credentials
        = sampleCredentials (some "dev") :=
  have h := SetContextTo_no_profile (sampleWorld sampleContent (some "dev")) sampleStore
    "minikube" { Name := "minikube", AWSprofile := "", Context := none } (by decide) rfl
  ⟨by decide, h.1, h.2.1, h.2.2.2⟩

theorem SetContextTo_unknown_context_witness :
    (∀ c ∈ sampleStore.Contexts, c.Name ≠ "xxxx") ∧
      (SetContextTo (sampleWorld sampleContent (some "dev")) sampleStore "xxxx").2.2
        = some (Error.cannotFind "xxxx") ∧
      (SetContextTo (sampleWorld sampleContent (some "dev")) sampleStore "xxxx").2.1.CurrentContext
        = "cntxB" ∧
      (SetContextTo (sampleWorld sampleContent (some "dev")) sampleStore "xxxx").1.credentials.Active
        = some "dev" :=
  have h := SetContextTo_unknown_context (sampleWorld sampleContent (some "dev")) sampleStore
    "xxxx" (by decide)
  ⟨by decide, h.1, h.2.1, h.2.2.2.2⟩

theorem find_perm_nodup (n : String) (l l2 : List KubeContext) (hp : l2.Perm l)
    (hn : (l.map (fun c => c.Name)).Nodup) :
    l2.find? (fun c => decide (c.Name = n)) = l.find? (fun c => decide (c.Name = n)) := by
  cases hf : l.find? (fun c => decide (c.Name = n)) with
  | none =>
    rw [List.find?_eq_none] at hf ⊢
    intro x hx
    exact hf x (hp.mem_iff.1 hx)
  | some c =>
    have hc : c ∈ l := List.mem_of_find?_eq_some hf
    have hcn : c.Name = n := by simpa using List.find?_some hf
    cases hf2 : l2.find? (fun c => decide (c.Name = n)) with
    | none =>
      rw [List.find?_eq_none] at hf2
      have := hf2 c (hp.mem_iff.2 hc)
      simp [hcn] at this
    | some c2 =>
      have hc2 : c2 ∈ l := hp.mem_iff.1 (List.mem_of_find?_eq_some hf2)
      have hc2n : c2.Name = n := by simpa using List.find?_some hf2
      rw [List.inj_on_of_nodup_map hn hc2 hc (hc2n.trans hcn.symm)]

theorem find_sortSlice_of_nodup (n : String) (l : List KubeContext)
    (hn : (l.map (fun c => c.Name)).Nodup) :
    (sortSlice l).find? (fun c => decide (c.Name = n))
      = l.find? (fun c => decide (c.Name = n)) :=
  find_perm_nodup n l (sortSlice l) (sortSlice_perm l) hn

theorem nameLt_antisymm : IsAntisymm KubeContext (fun a b => a.Name < b.Name) :=
  ⟨fun _ _ hab hba => absurd hab (lt_asymm hba)⟩

theorem sortSlice_twice_of_nodup (l : List KubeContext)
    (hn : (l.map (fun c => c.Name)).Nodup) : sortSlice (sortSlice l) = sortSlice l := by
  haveI := nameLt_antisymm
  have hn2 : ((sortSlice l).map (fun c => c.Name)).Nodup :=
    (sortSlice_names_perm l).nodup_iff.2 hn
  exact List.eq_of_perm_of_sorted (sortSlice_perm (sortSlice l))
    (sortSlice_strict (sortSlice l) hn2) (sortSlice_strict l hn)

theorem SetContextTo_nil_inv (w : World) (k : KubeConfig) (name : String)
    (h : (SetContextTo w k name).2.2 = none) :
    ∃ c, k.Contexts.find? (fun c => decide (c.Name = name)) = some c ∧
      c.AWSprofile ≠ "" ∧ w.credentialsError = none ∧
      c.AWSprofile ∈ w.credentials.Profiles ∧ w.credentialsReadOnly = false ∧
      w.readOnly k.Path = false := by
  cases hf : k.Contexts.find? (fun c => decide (c.Name = name)) with
  | none =>
    have hm : ∀ c ∈ k.Contexts, c.Name ≠ name := by
      intro c hc
      have := List.find?_eq_none.1 hf c hc
      simpa using this
    unfold SetContextTo at h
    rw [GetContextBy_missing k name hm] at h
    cases h
  | some c =>
    rw [SetContextTo_found w k name c hf] at h
    refine ⟨c, rfl, ?_⟩
    by_cases hlen : c.AWSprofile.length < 1
    · rw [if_pos hlen] at h
      cases h
    · rw [if_neg hlen] at h
      have hp : c.AWSprofile ≠ "" := fun e => hlen ((length_lt_one_iff _).2 e)
      cases he : w.credentialsError with
      | some e =>
        simp [GetCredentialsFile, he] at h
      | none =>
        by_cases hk : c.AWSprofile ∈ w.credentials.Profiles
        · cases hr : w.credentialsReadOnly with
          | true => simp [GetCredentialsFile, he, SetDefaultTo, hk, hr] at h
          | false =>
            cases hw : w.readOnly k.Path with
            | true =>
              simp [GetCredentialsFile, he, SetDefaultTo, hk, hr, SaveContexts, WriteFile, hw] at h
            | false => exact ⟨hp, rfl, hk, rfl, rfl⟩
        · simp [GetCredentialsFile, he, SetDefaultTo, hk] at h

/-- C6 (as amended): for a store with pairwise distinct context names, if before the call the
two files agree and `SetContextTo` does not fail with the write error of the context file,
then the two files agree after the call.  (The proof uses of the sort only that its result is
a permutation of the contexts.) -/
theorem SetContextTo_keeps_agreement (w : World) (k : KubeConfig) (contextName : String)
    (hnodup : (k.Contexts.map (fun c => c.Name)).Nodup)
    (hbefore : filesAgree w k.Path = true)
    (hwrite : (SetContextTo w k contextName).2.2 ≠ some (Error.writeFile k.Path)) :
    filesAgree (SetContextTo w k contextName).1 k.Path = true := by
  cases herr : (SetContextTo w k contextName).2.2 with
  | none =>
    obtain ⟨c, hctx, hp, hload, hknown, hcred, hfile⟩ :=
      SetContextTo_nil_inv w k contextName herr
    rw [SetContextTo_switched w k contextName c hctx hp hload hknown hcred hfile]
    simp [filesAgree, diskProfile, yamlMarshal, find_sortSlice_of_nodup _ _ hnodup, hctx]
  | some e =>
    have hsame : (SetContextTo w k contextName).1 = w := by
      cases hf : k.Contexts.find? (fun c => decide (c.Name = contextName)) with
      | none =>
        have hm : ∀ c ∈ k.Contexts, c.Name ≠ contextName := by
          intro c hc
          have := List.find?_eq_none.1 hf c hc
          simpa using this
        unfold SetContextTo
        rw [GetContextBy_missing k contextName hm]
      | some c =>
        rw [SetContextTo_found w k contextName c hf] at herr hwrite ⊢
        by_cases hlen : c.AWSprofile.length < 1
        · rw [if_pos hlen]
        · rw [if_neg hlen] at herr hwrite ⊢
          cases he : w.credentialsError with
          | some e2 => simp [GetCredentialsFile, he]
          | none =>
            by_cases hk : c.AWSprofile ∈ w.credentials.Profiles
            · cases hr : w.credentialsReadOnly with
              | true => simp [GetCredentialsFile, he, SetDefaultTo, hk, hr]
              | false =>
                cases hw : w.readOnly k.Path with
                | true =>
                  simp [GetCredentialsFile, he, SetDefaultTo, hk, hr, SaveContexts, WriteFile,
                    hw] at hwrite
                | false =>
                  simp [GetCredentialsFile, he, SetDefaultTo, hk, hr, SaveContexts, WriteFile,
                    hw] at herr
            · simp [GetCredentialsFile, he, SetDefaultTo, hk]
    rw [hsame]
    exact hbefore

theorem SetContextTo_keeps_agreement_witness :
    (sampleStore.Contexts.map (fun c => c.Name)).Nodup ∧
      filesAgree (sampleWorld sampleContent (some "live")) sampleStore.Path = true ∧
      (SetContextTo (sampleWorld sampleContent (some "live")) sampleStore "cntxC").2.2
        ≠ some (Error.writeFile sampleStore.Path) ∧
      filesAgree (SetContextTo (sampleWorld sampleContent (some "live")) sampleStore "cntxC").1
        sampleStore.Path = true :=
  ⟨by decide, by decide, by decide,
    SetContextTo_keeps_agreement (sampleWorld sampleContent (some "live")) sampleStore "cntxC"
      (by decide) (by decide) (by decide)⟩

/-- C6 (as stated) fails: the store is loaded from a kube config that cannot be written, the
two files agree on profile `live` (current context `cntxB`), and `SetContextTo "cntxC"`
switches the credential store to `dev`, fails to write the kube config and returns that
error, so the file still names `cntxB` while the active profile is `dev`. -/
theorem SetContextTo_contradictory_counterexample :
    (GetConfigFile (readOnlyWorld sampleContent (some "live"))).2 = none ∧
      filesAgree (readOnlyWorld sampleContent (some "live"))
        (GetConfigFile (readOnlyWorld sampleContent (some "live"))).1.Path = true ∧
      (SetContextTo (readOnlyWorld sampleContent (some "live"))
        (GetConfigFile (readOnlyWorld sampleContent (some "live"))).1 "cntxC").2.2
        = some (Error.writeFile "testdata/.kube/config") ∧
      (SetContextTo (readOnlyWorld sampleContent (some "live"))
        (GetConfigFile (readOnlyWorld sampleContent (some "live"))).1 "cntxC").1.credentials.Active
        = some "dev" ∧
      diskProfile (SetContextTo (readOnlyWorld sampleContent (some "live"))
        (GetConfigFile (readOnlyWorld sampleContent (some "live"))).1 "cntxC").1
        (GetConfigFile (readOnlyWorld sampleContent (some "live"))).1.Path = some "live" ∧
      filesAgree (SetContextTo (readOnlyWorld sampleContent (some "live"))
        (GetConfigFile (readOnlyWorld sampleContent (some "live"))).1 "cntxC").1
        (GetConfigFile (readOnlyWorld sampleContent (some "live"))).1.Path = false := by
  decide

/-- C7 (as amended): for a store with pairwise distinct context names, when `SetContextTo`
succeeds, a second call with the same name on the resulting store and world succeeds as well
and changes nothing: the store (in memory), every file and the credential store are exactly as
the first call left them.  (The proof uses of the sort only that its result is a permutation
of the contexts in non-decreasing order of `Name`.) -/
theorem SetContextTo_idempotent (w : World) (k : KubeConfig) (contextName : String)
    (hnodup : (k.Contexts.map (fun c => c.Name)).Nodup)
    (hfirst : (SetContextTo w k contextName).2.2 = none) :
    (SetContextTo (SetContextTo w k contextName).1 (SetContextTo w k contextName).2.1
        contextName).2.2 = none ∧
      (SetContextTo (SetContextTo w k contextName).1 (SetContextTo w k contextName).2.1
        contextName).2.1 = (SetContextTo w k contextName).2.1 ∧
      (SetContextTo (SetContextTo w k contextName).1 (SetContextTo w k contextName).2.1
        contextName).1.files = (SetContextTo w k contextName).1.files ∧
      (SetContextTo (SetContextTo w k contextName).1 (SetContextTo w k contextName).2.1
        contextName).1.credentials = (SetContextTo w k contextName).1.credentials := by
  obtain ⟨c, hctx, hp, hload, hknown, hcred, hfile⟩ :=
    SetContextTo_nil_inv w k contextName hfirst
  have h1 := SetContextTo_switched w k contextName c hctx hp hload hknown hcred hfile
  have h2 := SetContextTo_switched (SetContextTo w k contextName).1
    (SetContextTo w k contextName).2.1 contextName c
    (by rw [h1]; exact (find_sortSlice_of_nodup contextName k.Contexts hnodup).trans hctx) hp
    (by rw [h1]; exact hload) (by rw [h1]; exact hknown) (by rw [h1]; exact hcred)
    (by rw [h1]; exact hfile)
  rw [h2, h1]
  have htwice := sortSlice_twice_of_nodup k.Contexts hnodup
  refine ⟨rfl, ?_, ?_, rfl⟩
  · simp only [htwice]
  · funext p
    by_cases hpath : p = k.Path
    · simp [hpath, htwice]
    · simp [hpath]

theorem SetContextTo_idempotent_witness :
    (sampleStore.Contexts.map (fun c => c.Name)).Nodup ∧
      (SetContextTo (sampleWorld sampleContent none) sampleStore "cntxA").2.2 = none ∧
      (SetContextTo (SetContextTo (sampleWorld sampleContent none) sampleStore "cntxA").1
        (SetContextTo (sampleWorld sampleContent none) sampleStore "cntxA").2.1 "cntxA").2.2
        = none ∧
      (SetContextTo (SetContextTo (sampleWorld sampleContent none) sampleStore "cntxA").1
        (SetContextTo (sampleWorld sampleContent none) sampleStore "cntxA").2.1 "cntxA").2.1
        = (SetContextTo (sampleWorld sampleContent none) sampleStore "cntxA").2.1 :=
  have h := SetContextTo_idempotent (sampleWorld sampleContent none) sampleStore "cntxA"
    (by decide) (by decide)
  ⟨by decide, by decide, h.1, h.2.1⟩

/-- C7 (as stated) fails on a store with a repeated name: in the store with the contexts
`b`, `a` (profile `live`), `c`, `d`, `e`, `f`, `a` (no profile), `SetContextTo "a"` resolves
the first `a`, switches to `live` and succeeds; the shell pass of `sort.Slice` swaps the last
entry with the first, so the saved contexts start with the `a` that has no profile, and the
second `SetContextTo "a"` resolves that entry and returns `NoProfilSet`. -/
theorem SetContextTo_repeated_name_counterexample :
    (SetContextTo (sampleWorld sampleContent none) repeatedNameStore "a").2.2 = none ∧
      (SetContextTo (sampleWorld sampleContent none) repeatedNameStore "a").2.1.Contexts
        = [ { Name := "a", AWSprofile := "", Context := none },
            { Name := "a", AWSprofile := "live", Context := none },
            { Name := "b", AWSprofile := "dev", Context := none },
            { Name := "c", AWSprofile := "dev", Context := none },
            { Name := "d", AWSprofile := "dev", Context := none },
            { Name := "e", AWSprofile := "dev", Context := none },
            { Name := "f", AWSprofile := "dev", Context := none } ] ∧
      (SetContextTo
        (SetContextTo (sampleWorld sampleContent none) repeatedNameStore "a").1
        (SetContextTo (sampleWorld sampleContent none) repeatedNameStore "a").2.1 "a").2.2
        = some Error.NoProfilSet := by
  decide

theorem SaveContexts_store (w : World) (k : KubeConfig) :
    (SaveContexts w k).2.1 = { k with Contexts := sortSlice k.Contexts } := by
  unfold SaveContexts WriteFile
  by_cases h : w.readOnly k.Path = true
  · simp [h]
  · simp [h]

theorem SaveContexts_success (w : World) (k : KubeConfig) (h : (SaveContexts w k).2.2 = none) :
    SaveContexts w k =
      ({ w with
          files := fun p =>
            if p = k.Path then
              some (FileContent.document (yamlMarshal { k with Contexts := sortSlice k.Contexts }))
            else w.files p },
        { k with Contexts := sortSlice k.Contexts }, none) := by
  unfold SaveContexts WriteFile at h ⊢
  by_cases hr : w.readOnly k.Path = true
  · simp [hr] at h
  · simp [hr]

/-- C8: for a store with pairwise distinct context names whose `Path` is the path
`GetConfigFile` resolves, a successful `SaveContexts` followed by `GetConfigFile` returns no
error and a store with the same `CurrentContext` and the same contexts, compared by name,
cluster, user, namespace and `AWSprofile`. -/
theorem SaveContexts_GetConfigFile_roundtrip (w : World) (k : KubeConfig)
    (hnodup : (k.Contexts.map (fun c => c.Name)).Nodup)
    (hpath : k.Path = configPath w.env)
    (hsave : (SaveContexts w k).2.2 = none) :
    (GetConfigFile (SaveContexts w k).1).2 = none ∧
      (GetConfigFile (SaveContexts w k).1).1.CurrentContext = k.CurrentContext ∧
      ((GetConfigFile (SaveContexts w k).1).1.Contexts.map contextFields).Perm
        (k.Contexts.map contextFields) := by
  rw [SaveContexts_success w k hsave]
  have hread : (fun p =>
      if p = k.Path then
        some (FileContent.document (yamlMarshal { k with Contexts := sortSlice k.Contexts }))
      else w.files p) (configPath w.env)
      = some (FileContent.document (yamlMarshal { k with Contexts := sortSlice k.Contexts })) := by
    simp [hpath]
  rw [GetConfigFile_document _ _ hread]
  have hn : ((sortSlice k.Contexts).map (fun c => c.Name)).Nodup :=
    (sortSlice_names_perm k.Contexts).nodup_iff.2 hnodup
  have hd : findDuplicate (yamlMarshal { k with Contexts := sortSlice k.Contexts }).Contexts
      = none := (findDuplicate_eq_none_iff _).2 hn
  rw [hd]
  refine ⟨rfl, rfl, ?_⟩
  show ((sortSlice (sortSlice k.Contexts)).map contextFields).Perm _
  rw [sortSlice_idem]
  exact (sortSlice_perm k.Contexts).map _

theorem SaveContexts_GetConfigFile_roundtrip_witness :
    (sampleStore.Contexts.map (fun c => c.Name)).Nodup ∧
      sampleStore.Path = configPath (sampleWorld sampleContent none).env ∧
      (SaveContexts (sampleWorld sampleContent none) sampleStore).2.2 = none ∧
      (GetConfigFile (SaveContexts (sampleWorld sampleContent none) sampleStore).1).2 = none ∧
      (GetConfigFile (SaveContexts (sampleWorld sampleContent none) sampleStore).1).1.CurrentContext
        = "cntxB" :=
  have h := SaveContexts_GetConfigFile_roundtrip (sampleWorld sampleContent none) sampleStore
    (by decide) (by decide) (by decide)
  ⟨by decide, by decide, by decide, h.1, h.2.1⟩

/-- C9: when the content of the config file is readable and parseable and its context names
are pairwise distinct, `GetConfigFile` returns no error and a store whose `Contexts` are
exactly the parsed contexts (a permutation of them), in strictly increasing order of `Name`. -/
theorem GetConfigFile_sorted (w : World) (d : Document)
    (hread : w.files (configPath w.env) = some (FileContent.document d))
    (hnodup : (d.Contexts.map (fun c => c.Name)).Nodup) :
    (GetConfigFile w).2 = none ∧
      (GetConfigFile w).1.Contexts.Perm d.Contexts ∧
      (GetConfigFile w).1.Contexts.Pairwise (fun a b => a.Name < b.Name) := by
  rw [GetConfigFile_document w d hread, (findDuplicate_eq_none_iff _).2 hnodup]
  exact ⟨rfl, sortSlice_perm _, sortSlice_strict _ hnodup⟩

theorem GetConfigFile_sorted_witness :
    (sampleWorld (FileContent.document (sampleDocument sampleContexts "cntxB")) none).files
        (configPath sampleEnv)
        = some (FileContent.document (sampleDocument sampleContexts "cntxB")) ∧
      (sampleContexts.map (fun c => c.Name)).Nodup ∧
      (GetConfigFile
        (sampleWorld (FileContent.document (sampleDocument sampleContexts "cntxB")) none)).2
        = none ∧
      (GetConfigFile
        (sampleWorld (FileContent.document (sampleDocument sampleContexts "cntxB")) none)).1.Contexts.map
          (fun c => c.Name) = ["cntxA", "cntxB", "cntxC", "minikube"] :=
  have h := GetConfigFile_sorted
    (sampleWorld (FileContent.document (sampleDocument sampleContexts "cntxB")) none)
    (sampleDocument sampleContexts "cntxB") (by decide) (by decide)
  ⟨by decide, by decide, h.1, by decide⟩

theorem SaveContexts_store_sorted (w : World) (k : KubeConfig) :
    (SaveContexts w k).2.1.Contexts.Pairwise (fun a b => a.Name ≤ b.Name) := by
  rw [SaveContexts_store]
  exact sortSlice_sorted k.Contexts

theorem SetContextTo_sorted (w : World) (k : KubeConfig) (contextName : String) :
    (SetContextTo w k contextName).2.2 = none →
      (SetContextTo w k contextName).2.1.Contexts.Pairwise (fun a b => a.Name ≤ b.Name) := by
  intro h
  obtain ⟨c, hctx, hp, hload, hknown, hcred, hfile⟩ := SetContextTo_nil_inv w k contextName h
  rw [SetContextTo_switched w k contextName c hctx hp hload hknown hcred hfile]
  exact sortSlice_sorted k.Contexts

theorem AddProfileTo_sorted (w : World) (k : KubeConfig) (contextName profileName : String) :
    (AddProfileTo w k contextName profileName).2.2 = none →
      (AddProfileTo w k contextName profileName).2.1.Contexts.Pairwise
        (fun a b => a.Name ≤ b.Name) := by
  unfold AddProfileTo
  split
  · intro h; simp at h
  · split
    · intro h; simp at h
    · split
      · intro _; exact SaveContexts_store_sorted _ _
      · intro h; simp at h

theorem AddNamespaceTo_sorted (w : World) (k : KubeConfig) (contextName ns : String) :
    (AddNamespaceTo w k contextName ns).2.2 = none →
      (AddNamespaceTo w k contextName ns).2.1.Contexts.Pairwise
        (fun a b => a.Name ≤ b.Name) := by
  unfold AddNamespaceTo
  split
  · intro h; simp at h
  · intro _; exact SaveContexts_store_sorted _ _

/-- C10: after `SaveContexts` the store's `Contexts` are in non-decreasing order of `Name` and
are a permutation of the `Contexts` before the call; when the write succeeds the content
written to `Path` has the contexts in that same order; and after every successful
`SetContextTo`, `AddProfileTo`, `AddNamespaceTo` and `UnSetDefault` the `Contexts` are in
non-decreasing order of `Name`. -/
theorem SaveContexts_sorted (w : World) (k : KubeConfig) :
    (SaveContexts w k).2.1.Contexts.Pairwise (fun a b => a.Name ≤ b.Name) ∧
      (SaveContexts w k).2.1.Contexts.Perm k.Contexts ∧
      ((SaveContexts w k).2.2 = none →
        ∃ d, (SaveContexts w k).1.files k.Path = some (FileContent.document d) ∧
          d.Contexts = (SaveContexts w k).2.1.Contexts) ∧
      (∀ contextName, (SetContextTo w k contextName).2.2 = none →
        (SetContextTo w k contextName).2.1.Contexts.Pairwise (fun a b => a.Name ≤ b.Name)) ∧
      (∀ contextName profileName, (AddProfileTo w k contextName profileName).2.2 = none →
        (AddProfileTo w k contextName profileName).2.1.Contexts.Pairwise
          (fun a b => a.Name ≤ b.Name)) ∧
      (∀ contextName ns, (AddNamespaceTo w k contextName ns).2.2 = none →
        (AddNamespaceTo w k contextName ns).2.1.Contexts.Pairwise
          (fun a b => a.Name ≤ b.Name)) ∧
      ((UnSetDefault w k).2.2 = none →
        (UnSetDefault w k).2.1.Contexts.Pairwise (fun a b => a.Name ≤ b.Name)) := by
  refine ⟨SaveContexts_store_sorted w k, ?_, ?_, SetContextTo_sorted w k, AddProfileTo_sorted w k,
    AddNamespaceTo_sorted w k, fun _ => SaveContexts_store_sorted _ _⟩
  · rw [SaveContexts_store]
    exact sortSlice_perm k.Contexts
  · intro h
    rw [SaveContexts_success w k h]
    exact ⟨_, if_pos rfl, rfl⟩

theorem SaveContexts_sorted_witness :
    (SaveContexts (sampleWorld sampleContent none) sampleStore).2.2 = none ∧
      (SaveContexts (sampleWorld sampleContent none) sampleStore).2.1.Contexts.map
        (fun c => c.Name) = ["cntxA", "cntxB", "cntxC", "minikube"] ∧
      (SaveContexts (sampleWorld sampleContent none) sampleStore).2.1.Contexts.Pairwise
        (fun a b => a.Name ≤ b.Name) ∧
      (∃ d, (SaveContexts (sampleWorld sampleContent none) sampleStore).1.files sampleStore.Path
          = some (FileContent.document d) ∧
        d.Contexts = (SaveContexts (sampleWorld sampleContent none) sampleStore).2.1.Contexts) ∧
      (AddNamespaceTo (sampleWorld sampleContent none) sampleStore "cntxA" "n1").2.2 = none ∧
      (AddNamespaceTo (sampleWorld sampleContent none) sampleStore "cntxA" "n1").2.1.Contexts.Pairwise
        (fun a b => a.Name ≤ b.Name) :=
  have h := SaveContexts_sorted (sampleWorld sampleContent none) sampleStore
  ⟨by decide, by decide, h.1, h.2.2.1 (by decide), by decide,
    h.2.2.2.2.2.1 "cntxA" "n1" (by decide)⟩

theorem getContextLoop_some (name : String) (l : List KubeContext) (i : Nat) (p : KubeContext)
    (j : Nat) (h : getContextLoop name l i = some (p, j)) :
    ∃ l1 c l2, l = l1 ++ c :: l2 ∧ (∀ x ∈ l1, x.Name ≠ name) ∧ c.Name = name ∧
      p = ensureContext c ∧ j = i + l1.length := by
  induction l generalizing i with
  | nil => simp [getContextLoop] at h
  | cons a rest ih =>
    unfold getContextLoop at h
    by_cases ha : a.Name = name
    · rw [if_pos ha] at h
      simp only [Option.some.injEq, Prod.mk.injEq] at h
      exact ⟨[], a, rest, rfl, by simp, ha, h.1.symm, by simp [h.2]⟩
    · rw [if_neg ha] at h
      obtain ⟨l1, c, l2, hl, hne, hc, hp, hj⟩ := ih (i + 1) h
      refine ⟨a :: l1, c, l2, by simp [hl], ?_, hc, hp, ?_⟩
      · intro x hx
        rcases List.mem_cons.1 hx with rfl | hx
        · exact ha
        · exact hne x hx
      · simp only [List.length_cons]
        omega

theorem getContextLoop_none (name : String) (l : List KubeContext) (i : Nat) :
    getContextLoop name l i = none ↔ ∀ c ∈ l, c.Name ≠ name := by
  induction l generalizing i with
  | nil => simp [getContextLoop]
  | cons a rest ih =>
    unfold getContextLoop
    by_cases ha : a.Name = name
    · simp [ha]
    · simp [ha, ih]

theorem GetContextBy_ok (k : KubeConfig) (name : String)
    (h : (GetContextBy k name).2.2 = none) :
    ∃ l1 c l2, k.Contexts = l1 ++ c :: l2 ∧ (∀ x ∈ l1, x.Name ≠ name) ∧ c.Name = name ∧
      GetContextBy k name = (ensureContext c, Int.ofNat l1.length, none) := by
  unfold GetContextBy at h ⊢
  cases hg : getContextLoop name k.Contexts 0 with
  | none => rw [hg] at h; simp at h
  | some r =>
    obtain ⟨p, j⟩ := r
    obtain ⟨l1, c, l2, hl, hne, hc, hp, hj⟩ := getContextLoop_some name k.Contexts 0 p j hg
    refine ⟨l1, c, l2, hl, hne, hc, ?_⟩
    simp [hp, hj]

theorem GetContextBy_error_iff (k : KubeConfig) (name : String) :
    (GetContextBy k name).2.2 ≠ none ↔ ∀ c ∈ k.Contexts, c.Name ≠ name := by
  rw [← getContextLoop_none name k.Contexts 0]
  unfold GetContextBy
  cases hg : getContextLoop name k.Contexts 0 with
  | none => simp
  | some r => simp

theorem contextFields_ensureContext (c : KubeContext) :
    contextFields (ensureContext c) = contextFields c := by
  unfold ensureContext contextFields
  cases h : c.Context <;> simp [h, Context.zero]

theorem getElem_append_cons_length (l1 : List KubeContext) (c : KubeContext)
    (l2 : List KubeContext) : (l1 ++ c :: l2)[l1.length]? = some c := by
  rw [List.getElem?_append_right (Nat.le_refl _)]
  simp

/-- C12: `GetContextBy` returns an error exactly when no context of the store has the given
name; when one exists it returns nil error, the least index `i` with that name at position `i`
and a context that equals `Contexts[i]` in name, cluster, user, namespace and `AWSprofile`;
when none exists it returns index `-1` and the empty context. -/
theorem GetContextBy_spec (k : KubeConfig) (name : String) :
    ((GetContextBy k name).2.2 ≠ none ↔ ∀ c ∈ k.Contexts, c.Name ≠ name) ∧
      ((∃ c ∈ k.Contexts, c.Name = name) →
        (GetContextBy k name).2.2 = none ∧
        ∃ (i : Nat) (c : KubeContext),
          (GetContextBy k name).2.1 = Int.ofNat i ∧ k.Contexts[i]? = some c ∧ c.Name = name ∧
          (∀ j x, j < i → k.Contexts[j]? = some x → x.Name ≠ name) ∧
          contextFields (GetContextBy k name).1 = contextFields c) ∧
      ((∀ c ∈ k.Contexts, c.Name ≠ name) →
        (GetContextBy k name).2.1 = -1 ∧ (GetContextBy k name).1 = KubeContext.zero) := by
  refine ⟨GetContextBy_error_iff k name, ?_, ?_⟩
  · rintro ⟨c0, hc0, hn0⟩
    have hnone : (GetContextBy k name).2.2 = none := by
      by_contra hne
      exact (GetContextBy_error_iff k name).1 hne c0 hc0 hn0
    obtain ⟨l1, c, l2, hl, hne, hc, hres⟩ := GetContextBy_ok k name hnone
    refine ⟨hnone, l1.length, c, ?_, ?_, hc, ?_, ?_⟩
    · rw [hres]
    · rw [hl]
      exact getElem_append_cons_length l1 c l2
    · intro j x hj hx
      rw [hl, List.getElem?_append_left hj] at hx
      exact hne x (List.getElem?_mem hx)
    · rw [hres]
      exact contextFields_ensureContext c
  · intro h
    rw [GetContextBy_missing k name h]
    exact ⟨rfl, rfl⟩

theorem GetContextBy_spec_witness :
    (∃ c ∈ sampleStore.Contexts, c.Name = "cntxB") ∧
      (GetContextBy sampleStore "cntxB").2.2 = none ∧
      (GetContextBy sampleStore "cntxB").2.1 = 2 ∧
      contextFields (GetContextBy sampleStore "cntxB").1 = ("cntxB", "", "", "", "live") ∧
      (∀ c ∈ sampleStore.Contexts, c.Name ≠ "xxxx") ∧
      (GetContextBy sampleStore "xxxx").2.1 = -1 ∧
      (GetContextBy sampleStore "xxxx").1 = KubeContext.zero :=
  have h := GetContextBy_spec sampleStore "xxxx"
  have h2 := GetContextBy_spec sampleStore "cntxB"
  ⟨by decide, (h2.2.1 (by decide)).1, by decide, by decide, by decide,
    (h.2.2 (by decide)).1, (h.2.2 (by decide)).2⟩

theorem stringRel_total : IsTotal String (fun a b => stringLess b a = false) :=
  ⟨fun a b => by
    rw [stringLess_false_iff, stringLess_false_iff]
    exact le_total _ _⟩

theorem stringRel_trans : IsTrans String (fun a b => stringLess b a = false) :=
  ⟨fun a b c => by
    rw [stringLess_false_iff, stringLess_false_iff, stringLess_false_iff]
    exact le_trans⟩

theorem sortStrings_perm (l : List String) : (sortStrings l).Perm l :=
  List.perm_insertionSort _ l

theorem sortStrings_sorted (l : List String) :
    (sortStrings l).Pairwise (fun a b => a ≤ b) := by
  haveI := stringRel_total
  haveI := stringRel_trans
  have h := List.sorted_insertionSort (fun a b : String => stringLess b a = false) l
  unfold List.Sorted at h
  exact h.imp (fun hab => (stringLess_false_iff _ _).1 hab)

theorem sortStrings_of_sorted (l : List String) (h : l.Pairwise (fun a b => a ≤ b)) :
    sortStrings l = l := by
  apply List.Sorted.insertionSort_eq
  unfold List.Sorted
  exact h.imp (fun hab => (stringLess_false_iff _ _).2 hab)

theorem inList_iff (item : String) (list : List String) : inList item list = true ↔ item ∈ list := by
  induction list with
  | nil => simp [inList]
  | cons i rest ih =>
    unfold inList
    by_cases h : item = i
    · simp [h]
    · simp [h, ih]

theorem namedExists_iff (name : String) (file : KubeConfig) :
    namedExists name file = true ↔ name ∈ file.Contexts.map (fun c => c.Name) := by
  unfold namedExists GetContextNames
  rw [inList_iff]
  exact (sortStrings_perm _).mem_iff

/-- C13: `GetContextNames` returns a permutation of the names of `Contexts` (same length, same
multiset), in non-decreasing lexicographic order, and the empty list when `Contexts` is
empty. -/
theorem GetContextNames_spec (k : KubeConfig) :
    (GetContextNames k).Perm (k.Contexts.map (fun c => c.Name)) ∧
      (GetContextNames k).length = k.Contexts.length ∧
      (GetContextNames k).Pairwise (fun a b => a ≤ b) ∧
      (k.Contexts = [] → GetContextNames k = []) := by
  refine ⟨sortStrings_perm _, ?_, sortStrings_sorted _, ?_⟩
  · have h := (sortStrings_perm (k.Contexts.map (fun c => c.Name))).length_eq
    simpa [GetContextNames] using h
  · intro h
    unfold GetContextNames
    rw [h]
    rfl

theorem GetContextNames_spec_witness :
    GetContextNames sampleStore = ["cntxA", "cntxB", "cntxC", "minikube"] ∧
      (GetContextNames sampleStore).Perm (sampleStore.Contexts.map (fun c => c.Name)) ∧
      (GetContextNames sampleStore).Pairwise (fun a b => a ≤ b) ∧
      GetContextNames KubeConfig.zero = [] :=
  ⟨by decide, (GetContextNames_spec sampleStore).1, (GetContextNames_spec sampleStore).2.2.1,
    (GetContextNames_spec KubeConfig.zero).2.2.2 rfl⟩

theorem set_append_cons (l1 : List KubeContext) (c y : KubeContext) (l2 : List KubeContext) :
    (l1 ++ c :: l2).set l1.length y = l1 ++ y :: l2 := by
  rw [List.set_append_right _ _ (Nat.le_refl _)]
  simp

theorem ensureContext_eq (c : KubeContext) :
    ensureContext c =
      { Name := c.Name, AWSprofile := c.AWSprofile,
        Context := some (c.Context.getD Context.zero) } := by
  cases c with
  | mk n p b => cases b <;> rfl

theorem ensureContext_Context (c : KubeContext) :
    (ensureContext c).Context = some (c.Context.getD Context.zero) := by
  rw [ensureContext_eq]

theorem eq_of_nodup_names (l : List KubeContext) (h : (l.map (fun c => c.Name)).Nodup)
    (a b : KubeContext) (ha : a ∈ l) (hb : b ∈ l) (hab : a.Name = b.Name) : a = b :=
  List.inj_on_of_nodup_map h ha hb hab

theorem replace_spec (l1 l2 : List KubeContext) (c y : KubeContext) (hn : y.Name = c.Name)
    (hnodup : ((l1 ++ c :: l2).map (fun c => c.Name)).Nodup) :
    y ∈ sortSlice (l1 ++ y :: l2) ∧
      (∀ x ∈ sortSlice (l1 ++ y :: l2), x.Name = c.Name → x = y) ∧
      (∀ x, x.Name ≠ c.Name → (x ∈ sortSlice (l1 ++ y :: l2) ↔ x ∈ l1 ++ c :: l2)) ∧
      (sortSlice (l1 ++ y :: l2)).length = (l1 ++ c :: l2).length := by
  have hnodup2 : ((l1 ++ y :: l2).map (fun c => c.Name)).Nodup := by
    have : (l1 ++ y :: l2).map (fun c => c.Name) = (l1 ++ c :: l2).map (fun c => c.Name) := by
      simp [hn]
    rw [this]
    exact hnodup
  have hmem : ∀ x, x ∈ sortSlice (l1 ++ y :: l2) ↔ x ∈ l1 ++ y :: l2 :=
    fun x => (sortSlice_perm _).mem_iff
  refine ⟨(hmem y).2 (by simp), ?_, ?_, ?_⟩
  · intro x hx hxn
    exact eq_of_nodup_names _ hnodup2 x y ((hmem x).1 hx) (by simp) (hxn.trans hn.symm)
  · intro x hx
    rw [hmem]
    have h1 : x ≠ y := fun e => hx (e ▸ hn)
    have h2 : x ≠ c := fun e => hx (e ▸ rfl)
    simp [h1, h2]
  · rw [(sortSlice_perm _).length_eq]
    simp

theorem AddProfileTo_ok (w : World) (k : KubeConfig) (contextName profileName : String)
    (h : (AddProfileTo w k contextName profileName).2.2 = none) :
    ∃ l1 c l2, k.Contexts = l1 ++ c :: l2 ∧ (∀ x ∈ l1, x.Name ≠ contextName) ∧
      c.Name = contextName ∧
      AddProfileTo w k contextName profileName =
        SaveContexts w { k with
          Contexts := l1 ++
            { Name := c.Name, AWSprofile := profileName,
              Context := some (c.Context.getD Context.zero) } :: l2 } := by
  cases hg : (GetContextBy k contextName).2.2 with
  | some e =>
    have : (AddProfileTo w k contextName profileName).2.2 = some e := by
      unfold AddProfileTo
      split
      · rename_i heq
        rw [heq] at hg
        simpa using hg
      · rename_i heq
        rw [heq] at hg
        simp at hg
    rw [this] at h
    cases h
  | none =>
    obtain ⟨l1, c, l2, hl, hne, hc, hres⟩ := GetContextBy_ok k contextName hg
    refine ⟨l1, c, l2, hl, hne, hc, ?_⟩
    unfold AddProfileTo at h ⊢
    rw [hres] at h ⊢
    simp only at h ⊢
    cases hcred : GetCredentialsFile w with
    | error e => rw [hcred] at h; simp at h
    | ok f =>
      rw [hcred] at h
      simp only at h ⊢
      by_cases hin : inList profileName (GetProfilesNames f) = true
      · rw [if_pos hin]
        have hidx : (Int.ofNat l1.length).toNat = l1.length := rfl
        rw [hl, hidx, set_append_cons, ensureContext_Name, ensureContext_Context]
      · rw [if_neg hin] at h
        simp at h

/-- C14: for a store with pairwise distinct names and a context `c` in it named `contextName`,
a successful `AddProfileTo` leaves the store with that context carrying `profileName` as its
`AWSprofile` and the name, cluster, user and namespace it had (empty ones if it had no
`context` block), with every other context unchanged and with `CurrentContext` unchanged. -/
theorem AddProfileTo_success (w : World) (k : KubeConfig) (contextName profileName : String)
    (c : KubeContext)
    (hnodup : (k.Contexts.map (fun c => c.Name)).Nodup)
    (hc : c ∈ k.Contexts) (hname : c.Name = contextName)
    (hsuccess : (AddProfileTo w k contextName profileName).2.2 = none) :
    ({ Name := c.Name, AWSprofile := profileName,
        Context := some (c.Context.getD Context.zero) } : KubeContext)
        ∈ (AddProfileTo w k contextName profileName).2.1.Contexts ∧
      (∀ x ∈ (AddProfileTo w k contextName profileName).2.1.Contexts, x.Name = contextName →
        x = { Name := c.Name, AWSprofile := profileName,
              Context := some (c.Context.getD Context.zero) }) ∧
      (∀ x, x.Name ≠ contextName →
        (x ∈ (AddProfileTo w k contextName profileName).2.1.Contexts ↔ x ∈ k.Contexts)) ∧
      (AddProfileTo w k contextName profileName).2.1.Contexts.length = k.Contexts.length ∧
      (AddProfileTo w k contextName profileName).2.1.CurrentContext = k.CurrentContext := by
  obtain ⟨l1, c0, l2, hl, hne, hc0, hres⟩ := AddProfileTo_ok w k contextName profileName hsuccess
  have hcc : c0 = c := by
    apply eq_of_nodup_names k.Contexts hnodup c0 c _ hc (hc0.trans hname.symm)
    rw [hl]
    simp
  subst hcc
  rw [hres, SaveContexts_store]
  rw [hl] at hnodup
  have hr := replace_spec l1 l2 c0
    { Name := c0.Name, AWSprofile := profileName,
      Context := some (c0.Context.getD Context.zero) } rfl hnodup
  rw [hl, ← hc0]
  exact ⟨hr.1, hr.2.1, hr.2.2.1, hr.2.2.2, rfl⟩

theorem AddProfileTo_success_witness :
    (sampleStore.Contexts.map (fun c => c.Name)).Nodup ∧
      (AddProfileTo (sampleWorld sampleContent none) sampleStore "minikube" "dev").2.2 = none ∧
      ({ Name := "minikube", AWSprofile := "dev", Context := some Context.zero } : KubeContext)
        ∈ (AddProfileTo (sampleWorld sampleContent none) sampleStore "minikube" "dev").2.1.Contexts ∧
      (AddProfileTo (sampleWorld sampleContent none) sampleStore "minikube"
        "dev").2.1.CurrentContext = "cntxB" :=
  have h := AddProfileTo_success (sampleWorld sampleContent none) sampleStore "minikube" "dev"
    { Name := "minikube", AWSprofile := "", Context := none } (by decide) (by decide) rfl
    (by decide)
  ⟨by decide, by decide, h.1, h.2.2.2.2⟩

/-- C15: when the profile name is not among the profile names of the credential store,
`AddProfileTo` on an existing context returns an error (the one that names the profile and the
credential file, when the credential store loads), writes no file and leaves the store, in
particular every `AWSprofile`, as it was. -/
theorem AddProfileTo_unknown_profile (w : World) (k : KubeConfig)
    (contextName profileName : String)
    (hctx : ∃ c ∈ k.Contexts, c.Name = contextName)
    (hprofile : ∀ f, GetCredentialsFile w = Except.ok f → profileName ∉ GetProfilesNames f) :
    (AddProfileTo w k contextName profileName).2.2 ≠ none ∧
      (∀ f, GetCredentialsFile w = Except.ok f →
        (AddProfileTo w k contextName profileName).2.2
          = some (Error.profileNotExists profileName f.Path)) ∧
      (AddProfileTo w k contextName profileName).1.files = w.files ∧
      (AddProfileTo w k contextName profileName).2.1 = k := by
  obtain ⟨c0, hc0, hn0⟩ := hctx
  have hnone : (GetContextBy k contextName).2.2 = none := by
    by_contra hne
    exact (GetContextBy_error_iff k contextName).1 hne c0 hc0 hn0
  obtain ⟨l1, c, l2, _, _, _, hres⟩ := GetContextBy_ok k contextName hnone
  unfold AddProfileTo
  rw [hres]
  simp only
  cases hcred : GetCredentialsFile w with
  | error e =>
    refine ⟨by simp, ?_, rfl, rfl⟩
    intro f hf
    cases hf
  | ok f =>
    have hin : ¬ inList profileName (GetProfilesNames f) = true := by
      rw [inList_iff]
      exact hprofile f hcred
    simp only [if_neg hin]
    refine ⟨by simp, ?_, ?_, ?_⟩
    · intro f2 hf2
      cases hf2
      rfl
    · first | rfl | trivial
    · first | rfl | trivial

theorem AddProfileTo_unknown_profile_witness :
    (∃ c ∈ sampleStore.Contexts, c.Name = "cntxA") ∧
      (AddProfileTo (sampleWorld sampleContent none) sampleStore "cntxA" "anotherprofile").2.2
        = some (Error.profileNotExists "anotherprofile" "testdata/.aws/credentials") ∧
      (AddProfileTo (sampleWorld sampleContent none) sampleStore "cntxA" "anotherprofile").2.1
        = sampleStore :=
  have h := AddProfileTo_unknown_profile (sampleWorld sampleContent none) sampleStore "cntxA"
    "anotherprofile" (by decide)
    (fun f hf => by
      have hf2 : f = sampleCredentials none := by
        have h3 : Except.ok (sampleCredentials none) = (Except.ok f : Except Error _) := hf
        cases h3
        rfl
      subst hf2
      decide)
  ⟨by decide, h.2.1 (sampleCredentials none) rfl, h.2.2.2⟩

/-- C17: when no context of the store has the given name, `AddProfileTo` and `AddNamespaceTo`
return an error (the lookup error) for every profile and namespace, write no file and leave
the store unchanged. -/
theorem Add_unknown_context (w : World) (k : KubeConfig) (contextName : String)
    (hctx : ∀ c ∈ k.Contexts, c.Name ≠ contextName) :
    (∀ p, (AddProfileTo w k contextName p).2.2 = some (Error.cannotFind contextName) ∧
        (AddProfileTo w k contextName p).1.files = w.files ∧
        (AddProfileTo w k contextName p).2.1 = k) ∧
      (∀ n, (AddNamespaceTo w k contextName n).2.2 = some (Error.cannotFind contextName) ∧
        (AddNamespaceTo w k contextName n).1.files = w.files ∧
        (AddNamespaceTo w k contextName n).2.1 = k) := by
  constructor
  · intro p
    unfold AddProfileTo
    rw [GetContextBy_missing k contextName hctx]
    exact ⟨rfl, rfl, rfl⟩
  · intro n
    unfold AddNamespaceTo
    rw [GetContextBy_missing k contextName hctx]
    exact ⟨rfl, rfl, rfl⟩

theorem Add_unknown_context_witness :
    (∀ c ∈ ({ sampleStore with CurrentContext := "" } : KubeConfig).Contexts, c.Name ≠ "") ∧
      (AddProfileTo (sampleWorld sampleContent none) { sampleStore with CurrentContext := "" }
        "" "dev").2.2 = some (Error.cannotFind "") ∧
      (AddNamespaceTo (sampleWorld sampleContent none) { sampleStore with CurrentContext := "" }
        "" "n1").2.1 = { sampleStore with CurrentContext := "" } :=
  have h := Add_unknown_context (sampleWorld sampleContent none)
    { sampleStore with CurrentContext := "" } "" (by decide)
  ⟨by decide, (h.1 "dev").1, (h.2 "n1").2.2⟩

theorem AddNamespaceTo_ok (w : World) (k : KubeConfig) (contextName ns : String)
    (h : (AddNamespaceTo w k contextName ns).2.2 = none) :
    ∃ l1 c l2, k.Contexts = l1 ++ c :: l2 ∧ (∀ x ∈ l1, x.Name ≠ contextName) ∧
      c.Name = contextName ∧
      AddNamespaceTo w k contextName ns =
        SaveContexts w { k with
          Contexts := l1 ++
            { Name := c.Name, AWSprofile := c.AWSprofile,
              Context := some
                { Cluster := (c.Context.getD Context.zero).Cluster,
                  User := (c.Context.getD Context.zero).User,
                  Namespace := ns } } :: l2 } := by
  cases hg : (GetContextBy k contextName).2.2 with
  | some e =>
    have : (AddNamespaceTo w k contextName ns).2.2 = some e := by
      unfold AddNamespaceTo
      split
      · rename_i heq
        rw [heq] at hg
        simpa using hg
      · rename_i heq
        rw [heq] at hg
        simp at hg
    rw [this] at h
    cases h
  | none =>
    obtain ⟨l1, c, l2, hl, hne, hc, hres⟩ := GetContextBy_ok k contextName hg
    refine ⟨l1, c, l2, hl, hne, hc, ?_⟩
    unfold AddNamespaceTo
    rw [hres]
    simp only
    have hidx : (Int.ofNat l1.length).toNat = l1.length := rfl
    rw [hl, hidx, set_append_cons, ensureContext_Name, ensureContext_AWSprofile,
      ensureContext_Context]
    rfl

/-- C16: for a store with pairwise distinct names and a context `c` in it named `contextName`,
a successful `AddNamespaceTo` leaves the store with that context carrying the given namespace
(the empty string included) and the name, `AWSprofile`, cluster and user it had (empty cluster
and user if it had no `context` block), with every other context unchanged and with
`CurrentContext` unchanged. -/
theorem AddNamespaceTo_success (w : World) (k : KubeConfig) (contextName ns : String)
    (c : KubeContext)
    (hnodup : (k.Contexts.map (fun c => c.Name)).Nodup)
    (hc : c ∈ k.Contexts) (hname : c.Name = contextName)
    (hsuccess : (AddNamespaceTo w k contextName ns).2.2 = none) :
    ({ Name := c.Name, AWSprofile := c.AWSprofile,
        Context := some
          { Cluster := (c.Context.getD Context.zero).Cluster,
            User := (c.Context.getD Context.zero).User,
            Namespace := ns } } : KubeContext)
        ∈ (AddNamespaceTo w k contextName ns).2.1.Contexts ∧
      (∀ x ∈ (AddNamespaceTo w k contextName ns).2.1.Contexts, x.Name = contextName →
        x = { Name := c.Name, AWSprofile := c.AWSprofile,
              Context := some
                { Cluster := (c.Context.getD Context.zero).Cluster,
                  User := (c.Context.getD Context.zero).User,
                  Namespace := ns } }) ∧
      (∀ x, x.Name ≠ contextName →
        (x ∈ (AddNamespaceTo w k contextName ns).2.1.Contexts ↔ x ∈ k.Contexts)) ∧
      (AddNamespaceTo w k contextName ns).2.1.Contexts.length = k.Contexts.length ∧
      (AddNamespaceTo w k contextName ns).2.1.CurrentContext = k.CurrentContext := by
  obtain ⟨l1, c0, l2, hl, hne, hc0, hres⟩ := AddNamespaceTo_ok w k contextName ns hsuccess
  have hcc : c0 = c := by
    apply eq_of_nodup_names k.Contexts hnodup c0 c _ hc (hc0.trans hname.symm)
    rw [hl]
    simp
  subst hcc
  rw [hres, SaveContexts_store]
  rw [hl] at hnodup
  have hr := replace_spec l1 l2 c0
    { Name := c0.Name, AWSprofile := c0.AWSprofile,
      Context := some
        { Cluster := (c0.Context.getD Context.zero).Cluster,
          User := (c0.Context.getD Context.zero).User,
          Namespace := ns } } rfl hnodup
  rw [hl, ← hc0]
  exact ⟨hr.1, hr.2.1, hr.2.2.1, hr.2.2.2, rfl⟩

theorem AddNamespaceTo_success_witness :
    (sampleStore.Contexts.map (fun c => c.Name)).Nodup ∧
      (AddNamespaceTo (sampleWorld sampleContent none) sampleStore "cntxA" "n1").2.2 = none ∧
      ({ Name := "cntxA", AWSprofile := "live",
          Context := some { Cluster := "", User := "", Namespace := "n1" } } : KubeContext)
        ∈ (AddNamespaceTo (sampleWorld sampleContent none) sampleStore "cntxA" "n1").2.1.Contexts ∧
      (AddNamespaceTo (sampleWorld sampleContent none) sampleStore "cntxA"
        "n1").2.1.CurrentContext = "cntxB" :=
  have h := AddNamespaceTo_success (sampleWorld sampleContent none) sampleStore "cntxA" "n1"
    { Name := "cntxA", AWSprofile := "live", Context := none } (by decide) (by decide) rfl
    (by decide)
  ⟨by decide, by decide, h.1, h.2.2.2.2⟩

/-- C18: a successful `UnSetDefault` leaves `CurrentContext` empty in memory and in the file
written at `Path`, leaves the contexts (a permutation of the same entries) unchanged in memory
and in the file, and neither reads nor modifies the credential store: store, error and files
are the same whatever the credential store is, and the credential store is as before. -/
theorem UnSetDefault_success (w : World) (k : KubeConfig)
    (hsuccess : (UnSetDefault w k).2.2 = none) :
    (UnSetDefault w k).2.1.CurrentContext = "" ∧
      (∃ d, (UnSetDefault w k).1.files k.Path = some (FileContent.document d) ∧
        d.CurrentContext = "" ∧ d.Contexts.Perm k.Contexts) ∧
      (UnSetDefault w k).2.1.Contexts.Perm k.Contexts ∧
      (UnSetDefault w k).1.credentials = w.credentials ∧
      (∀ (cred : CredentialsFile) (cerr : Option Error) (cro : Bool),
        (UnSetDefault { w with
            credentials := cred, credentialsError := cerr, credentialsReadOnly := cro } k).2
          = (UnSetDefault w k).2 ∧
        (UnSetDefault { w with
            credentials := cred, credentialsError := cerr, credentialsReadOnly := cro } k).1.files
          = (UnSetDefault w k).1.files) := by
  unfold UnSetDefault at hsuccess ⊢
  rw [SaveContexts_success w _ hsuccess]
  refine ⟨rfl, ⟨_, if_pos rfl, rfl, sortSlice_perm _⟩, sortSlice_perm _, rfl, ?_⟩
  intro cred cerr cro
  have hro : w.readOnly k.Path = false := by
    unfold SaveContexts WriteFile at hsuccess
    cases hr : w.readOnly k.Path with
    | true => simp [hr] at hsuccess
    | false => rfl
  simp [SaveContexts, WriteFile, hro]

theorem UnSetDefault_success_witness :
    (UnSetDefault (sampleWorld sampleContent (some "live")) sampleStore).2.2 = none ∧
      (UnSetDefault (sampleWorld sampleContent (some "live")) sampleStore).2.1.CurrentContext
        = "" ∧
      (UnSetDefault (sampleWorld sampleContent (some "live")) sampleStore).1.credentials
        = sampleCredentials (some "live") :=
  have h := UnSetDefault_success (sampleWorld sampleContent (some "live")) sampleStore
    (by decide)
  ⟨by decide, h.1, h.2.2.2.1⟩

theorem digitValue_digitChar (m : Nat) (h : m < 10) : digitValue (Nat.digitChar m) = some m := by
  interval_cases m <;> rfl

theorem parseDigits_append (l ds : List Char) (acc : Nat) :
    parseDigits (l ++ ds) acc = (parseDigits l acc).bind (fun v => parseDigits ds v) := by
  induction l generalizing acc with
  | nil => rfl
  | cons c l ih =>
    simp only [List.cons_append, parseDigits]
    cases digitValue c with
    | none => rfl
    | some d => exact ih _

theorem toDigitsCore_parse (f : Nat) : ∀ (n : Nat) (ds : List Char), n < f →
    ∃ l, Nat.toDigitsCore 10 f n ds = l ++ ds ∧ l ≠ [] ∧
      ∀ acc, parseDigits l acc = some (acc * 10 ^ l.length + n) := by
  induction f with
  | zero => intro n ds h; omega
  | succ f ih =>
    intro n ds h
    unfold Nat.toDigitsCore
    by_cases hz : n / 10 = 0
    · simp only [hz, if_true]
      refine ⟨[Nat.digitChar (n % 10)], rfl, by simp, ?_⟩
      intro acc
      have hlt : n < 10 := by omega
      simp only [parseDigits, digitValue_digitChar (n % 10) (Nat.mod_lt _ (by decide))]
      simp only [List.length_singleton, pow_one]
      congr 1
      omega
    · simp only [hz, if_false]
      have hlt : n / 10 < f := by omega
      obtain ⟨l, hl, _, hp⟩ := ih (n / 10) (Nat.digitChar (n % 10) :: ds) hlt
      refine ⟨l ++ [Nat.digitChar (n % 10)], by simp [hl], by simp, ?_⟩
      intro acc
      rw [parseDigits_append, hp acc]
      simp only [Option.some_bind, parseDigits,
        digitValue_digitChar (n % 10) (Nat.mod_lt _ (by decide))]
      simp only [List.length_append, List.length_singleton, pow_succ]
      congr 1
      have := Nat.div_add_mod n 10
      nlinarith [this]

theorem digitValue_some_ge (c : Char) (d : Nat) (h : digitValue c = some d) : 48 ≤ c.toNat := by
  unfold digitValue at h
  by_cases hc : 48 ≤ c.toNat ∧ c.toNat ≤ 57
  · exact hc.1
  · rw [if_neg hc] at h
    cases h

theorem Atoi_toString (i : Nat) (h : i < 2 ^ 63) : Atoi (toString i) = some (Int.ofNat i) := by
  obtain ⟨l, hl, hne, hp⟩ := toDigitsCore_parse (i + 1) i [] (Nat.lt_succ_self i)
  have hlist : (toString i).toList = l := by
    show (Nat.toDigits 10 i).asString.toList = l
    unfold Nat.toDigits
    rw [hl, List.append_nil]
    rfl
  have hparse : parseDigits l 0 = some i := by
    rw [hp 0]
    simp
  unfold Atoi
  rw [hlist]
  cases l with
  | nil => exact absurd rfl hne
  | cons c rest =>
    have hge : 48 ≤ c.toNat := by
      unfold parseDigits at hparse
      cases hd : digitValue c with
      | none => rw [hd] at hparse; cases hparse
      | some d => exact digitValue_some_ge c d hd
    have h1 : c ≠ '-' := by
      intro e
      rw [e] at hge
      exact absurd hge (by decide)
    have h2 : c ≠ '+' := by
      intro e
      rw [e] at hge
      exact absurd hge (by decide)
    dsimp only
    rw [if_neg h1, if_neg h2, hparse, Option.some_bind]
    unfold inIntRange
    have hr : -(2 : Int) ^ 63 ≤ (i : Int) ∧ (i : Int) < (2 : Int) ^ 63 := by
      constructor
      · have : (0 : Int) ≤ (i : Int) := Int.ofNat_nonneg i
        have h63 : (0 : Int) ≤ (2 : Int) ^ 63 := by positivity
        omega
      · exact_mod_cast h
    rw [if_pos hr]
    rfl

theorem GetConfigFile_ok (w : World) (h : (GetConfigFile w).2 = none) :
    ∃ d, w.files (configPath w.env) = some (FileContent.document d) ∧
      (d.Contexts.map (fun c => c.Name)).Nodup ∧
      (GetConfigFile w).1.Contexts = sortSlice d.Contexts ∧
      (GetConfigFile w).1.CurrentContext = d.CurrentContext := by
  cases hf : w.files (configPath w.env) with
  | none => simp [GetConfigFile, ReadFile, hf] at h
  | some content =>
    cases content with
    | malformed msg => simp [GetConfigFile, ReadFile, hf] at h
    | mistyped d msg => simp [GetConfigFile, ReadFile, hf] at h
    | document d =>
      rw [GetConfigFile_document w d hf] at h ⊢
      cases hd : findDuplicate d.Contexts with
      | some n => rw [hd] at h; simp at h
      | none => exact ⟨d, rfl, (findDuplicate_eq_none_iff _).1 hd, rfl, rfl⟩

theorem GetContextNames_of_sorted (k : KubeConfig)
    (h : k.Contexts.Pairwise (fun a b => a.Name ≤ b.Name)) :
    GetContextNames k = k.Contexts.map (fun c => c.Name) := by
  unfold GetContextNames
  apply sortStrings_of_sorted
  exact List.pairwise_map.2 h

theorem idToName_index (file : KubeConfig) (hlen : file.Contexts.length < 2 ^ 63) (i : Nat)
    (c : KubeContext) (hc : file.Contexts[i]? = some c) :
    idToName (toString i) file = Except.ok (c.Name, none) := by
  have hi : i < file.Contexts.length := by
    obtain ⟨hlt, _⟩ := List.getElem?_eq_some.1 hc
    exact hlt
  unfold idToName
  rw [Atoi_toString i (by omega)]
  have hnot : ¬ ((file.Contexts.length : Int) < Int.ofNat i) := by
    have : ((i : Nat) : Int) < (file.Contexts.length : Int) := by exact_mod_cast hi
    have he : Int.ofNat i = ((i : Nat) : Int) := rfl
    omega
  simp only [if_neg hnot]
  unfold sliceIndex
  have hnn : (0 : Int) ≤ Int.ofNat i := Int.ofNat_nonneg i
  have hidx : (Int.ofNat i).toNat = i := rfl
  simp only [if_pos hnn, hidx, hc]

/-- C19: on a store with at most `2^63 - 1` contexts (the bound of a Go slice), `idToName` on
the decimal form of an index `i` of `Contexts` returns the name of `Contexts[i]` and no error;
on a loaded store, whose contexts are sorted, that is the `i`-th name in lexicographic order;
and on a token that does not parse as an integer it returns the token unchanged and no
error. -/
theorem idToName_spec (file : KubeConfig) (hlen : file.Contexts.length < 2 ^ 63) :
    (∀ (i : Nat) (c : KubeContext), file.Contexts[i]? = some c →
        idToName (toString i) file = Except.ok (c.Name, none)) ∧
      (∀ w, GetConfigFile w = (file, none) → ∀ (i : Nat) (name : String),
        (GetContextNames file)[i]? = some name →
          idToName (toString i) file = Except.ok (name, none)) ∧
      (∀ token, Atoi token = none → idToName token file = Except.ok (token, none)) := by
  refine ⟨idToName_index file hlen, ?_, ?_⟩
  · intro w hw i name hname
    have hnone : (GetConfigFile w).2 = none := by rw [hw]
    obtain ⟨d, _, _, hctx, _⟩ := GetConfigFile_ok w hnone
    have hsorted : file.Contexts.Pairwise (fun a b => a.Name ≤ b.Name) := by
      have : file.Contexts = sortSlice d.Contexts := by rw [← hctx, hw]
      rw [this]
      exact sortSlice_sorted _
    rw [GetContextNames_of_sorted file hsorted, List.getElem?_map] at hname
    cases hc : file.Contexts[i]? with
    | none => rw [hc] at hname; cases hname
    | some c =>
      rw [hc] at hname
      simp only [Option.map_some', Option.some.injEq] at hname
      rw [← hname]
      exact idToName_index file hlen i c hc
  · intro token htoken
    unfold idToName
    rw [htoken]

theorem idToName_spec_witness :
    (GetConfigFile (sampleWorld sampleContent none)).2 = none ∧
      GetContextNames (GetConfigFile (sampleWorld sampleContent none)).1
        = ["cntxA", "cntxB", "cntxC", "minikube"] ∧
      idToName "2" (GetConfigFile (sampleWorld sampleContent none)).1
        = Except.ok ("cntxC", none) ∧
      Atoi "cntxC" = none ∧
      idToName "cntxC" (GetConfigFile (sampleWorld sampleContent none)).1
        = Except.ok ("cntxC", none) :=
  have h := idToName_spec (GetConfigFile (sampleWorld sampleContent none)).1 (by decide)
  ⟨by decide, by decide, h.2.1 (sampleWorld sampleContent none) rfl 2 "cntxC" (by decide),
    by decide, h.2.2 "cntxC" (by decide)⟩

/-- C20 fails on the code: the guard of `idToName` is `len(file.Contexts) < id`, so the ID
equal to the number of contexts (`4` on the loaded four-context store, `0` on an empty store)
and a negative ID pass the guard and `file.Contexts[id]` panics with an index out of range;
only an ID above the number of contexts gets the error. -/
theorem idToName_out_of_range :
    (GetConfigFile (sampleWorld sampleContent none)).2 = none ∧
      (GetConfigFile (sampleWorld sampleContent none)).1.Contexts.length = 4 ∧
      idToName "4" (GetConfigFile (sampleWorld sampleContent none)).1
        = Except.error (Panic.indexOutOfRange 4 4) ∧
      idToName "0" KubeConfig.zero = Except.error (Panic.indexOutOfRange 0 0) ∧
      idToName "-1" (GetConfigFile (sampleWorld sampleContent none)).1
        = Except.error (Panic.indexOutOfRange (-1) 4) ∧
      idToName "5" (GetConfigFile (sampleWorld sampleContent none)).1
        = Except.ok ("", some (Error.idNotExists 5)) := by
  decide

theorem SaveContexts_names_nodup (w : World) (k : KubeConfig)
    (h : (k.Contexts.map (fun c => c.Name)).Nodup) :
    ((SaveContexts w k).2.1.Contexts.map (fun c => c.Name)).Nodup := by
  rw [SaveContexts_store]
  exact (sortSlice_names_perm k.Contexts).nodup_iff.2 h

theorem SetContextTo_names_nodup (w : World) (k : KubeConfig) (contextName : String)
    (h : (k.Contexts.map (fun c => c.Name)).Nodup) :
    ((SetContextTo w k contextName).2.1.Contexts.map (fun c => c.Name)).Nodup := by
  unfold SetContextTo
  split
  · exact h
  · split
    · exact h
    · split
      · exact h
      · split
        · exact h
        · exact SaveContexts_names_nodup _ _ h

theorem set_names (k : KubeConfig) (contextName : String) (ctx : KubeContext) (idx : Int)
    (y : KubeContext) (hy : y.Name = ctx.Name)
    (hg : GetContextBy k contextName = (ctx, idx, none)) :
    (k.Contexts.set idx.toNat y).map (fun c => c.Name) = k.Contexts.map (fun c => c.Name) := by
  have hnone : (GetContextBy k contextName).2.2 = none := by rw [hg]
  obtain ⟨l1, c, l2, hl, _, _, hres⟩ := GetContextBy_ok k contextName hnone
  rw [hg] at hres
  simp only [Prod.mk.injEq] at hres
  have hidx : idx.toNat = l1.length := by rw [hres.2.1]; rfl
  have hname : y.Name = c.Name := by rw [hy, hres.1, ensureContext_Name]
  rw [hl, hidx, set_append_cons]
  simp [hname]

theorem AddProfileTo_names_nodup (w : World) (k : KubeConfig) (contextName profileName : String)
    (h : (k.Contexts.map (fun c => c.Name)).Nodup) :
    ((AddProfileTo w k contextName profileName).2.1.Contexts.map (fun c => c.Name)).Nodup := by
  unfold AddProfileTo
  split
  · exact h
  · rename_i ctx idx hg
    split
    · exact h
    · split
      · apply SaveContexts_names_nodup
        have hs := set_names k contextName ctx idx { ctx with AWSprofile := profileName } rfl hg
        show ((k.Contexts.set idx.toNat { ctx with AWSprofile := profileName }).map
          (fun c => c.Name)).Nodup
        rw [hs]
        exact h
      · exact h

theorem AddNamespaceTo_names_nodup (w : World) (k : KubeConfig) (contextName ns : String)
    (h : (k.Contexts.map (fun c => c.Name)).Nodup) :
    ((AddNamespaceTo w k contextName ns).2.1.Contexts.map (fun c => c.Name)).Nodup := by
  unfold AddNamespaceTo
  split
  · exact h
  · rename_i ctx idx hg
    apply SaveContexts_names_nodup
    have hs := set_names k contextName ctx idx
      { ctx with Context := ctx.Context.map (fun c => { c with Namespace := ns }) } rfl hg
    show ((k.Contexts.set idx.toNat
      { ctx with Context := ctx.Context.map (fun c => { c with Namespace := ns }) }).map
        (fun c => c.Name)).Nodup
    rw [hs]
    exact h

theorem append_names_nodup (l : List KubeContext) (y : KubeContext)
    (h : (l.map (fun c => c.Name)).Nodup) (hy : y.Name ∉ l.map (fun c => c.Name)) :
    ((l ++ [y]).map (fun c => c.Name)).Nodup := by
  rw [List.map_append, List.nodup_append]
  refine ⟨h, by simp, ?_⟩
  intro a ha hb
  simp only [List.map_cons, List.map_nil, List.mem_singleton] at hb
  exact hy (hb ▸ ha)

theorem addContext_names_nodup (w : World) (k : KubeConfig) (c : CliContext)
    (h : (k.Contexts.map (fun c => c.Name)).Nodup) :
    ((addContext w k c).2.1.Contexts.map (fun c => c.Name)).Nodup := by
  unfold addContext
  split
  · exact h
  · dsimp only
    split
    · exact h
    · rename_i hex
      apply SaveContexts_names_nodup
      apply append_names_nodup _ _ h
      intro hin
      exact hex ((namedExists_iff _ k).2 hin)

theorem copyContext_names_nodup (w : World) (k : KubeConfig) (c : CliContext)
    (h : (k.Contexts.map (fun c => c.Name)).Nodup) :
    ((copyContext w k c).2.1.Contexts.map (fun c => c.Name)).Nodup := by
  unfold copyContext
  split
  · exact h
  · dsimp only
    by_cases hex : namedExists (c.Args.headD "") k = true
    · rw [if_pos hex]
      exact h
    · rw [if_neg hex]
      split
      · exact h
      · apply SaveContexts_names_nodup
        apply append_names_nodup _ _ h
        intro hin
        exact hex ((namedExists_iff _ k).2 hin)

/-- C11: every store that `GetConfigFile` returns without error has pairwise distinct context
names, and from a store with pairwise distinct context names the store left by `SetContextTo`,
`AddProfileTo`, `AddNamespaceTo`, `UnSetDefault` and by the commands `new` and `copy` has
pairwise distinct context names again, whether the operation succeeds or fails. -/
theorem names_stay_distinct (w : World) (k : KubeConfig)
    (hk : (k.Contexts.map (fun c => c.Name)).Nodup) :
    ((GetConfigFile w).2 = none →
        ((GetConfigFile w).1.Contexts.map (fun c => c.Name)).Nodup) ∧
      (∀ contextName,
        ((SetContextTo w k contextName).2.1.Contexts.map (fun c => c.Name)).Nodup) ∧
      (∀ contextName profileName,
        ((AddProfileTo w k contextName profileName).2.1.Contexts.map
          (fun c => c.Name)).Nodup) ∧
      (∀ contextName ns,
        ((AddNamespaceTo w k contextName ns).2.1.Contexts.map (fun c => c.Name)).Nodup) ∧
      ((UnSetDefault w k).2.1.Contexts.map (fun c => c.Name)).Nodup ∧
      (∀ c, ((addContext w k c).2.1.Contexts.map (fun c => c.Name)).Nodup) ∧
      (∀ c, ((copyContext w k c).2.1.Contexts.map (fun c => c.Name)).Nodup) := by
  refine ⟨?_, fun n => SetContextTo_names_nodup w k n hk,
    fun n p => AddProfileTo_names_nodup w k n p hk,
    fun n ns => AddNamespaceTo_names_nodup w k n ns hk,
    SaveContexts_names_nodup w _ hk,
    fun c => addContext_names_nodup w k c hk,
    fun c => copyContext_names_nodup w k c hk⟩
  intro h
  obtain ⟨d, _, hn, hctx, _⟩ := GetConfigFile_ok w h
  rw [hctx]
  exact (sortSlice_names_perm d.Contexts).nodup_iff.2 hn

theorem names_stay_distinct_witness :
    (sampleStore.Contexts.map (fun c => c.Name)).Nodup ∧
      (GetConfigFile (sampleWorld sampleContent none)).2 = none ∧
      ((GetConfigFile (sampleWorld sampleContent none)).1.Contexts.map
        (fun c => c.Name)).Nodup ∧
      (addContext (sampleWorld sampleContent none) sampleStore
        { Args := ["cntxA"], user := "", ns := "", cluster := "", profile := "" }).2.2
        = some Error.duplicatedContextName ∧
      ((addContext (sampleWorld sampleContent none) sampleStore
        { Args := ["cntxD"], user := "u", ns := "", cluster := "", profile := "dev"
          }).2.1.Contexts.map (fun c => c.Name)) = ["cntxA", "cntxB", "cntxC", "cntxD", "minikube"] ∧
      ((copyContext (sampleWorld sampleContent none) sampleStore
        { Args := ["cntxD"], user := "u", ns := "", cluster := "", profile := "dev"
          }).2.1.Contexts.map (fun c => c.Name)).Nodup :=
  have h := names_stay_distinct (sampleWorld sampleContent none) sampleStore (by decide)
  ⟨by decide, by decide, h.1 (by decide), by decide, by decide,
    h.2.2.2.2.2.2 { Args := ["cntxD"], user := "u", ns := "", cluster := "", profile := "dev" }⟩

/-- C21: when the first argument of `new` or `copy` is the name of an existing context, both
commands return `duplicatedContextName` whatever the flags are, write no file and leave the
store unchanged; and `namedExists` is true exactly when some context has the name. -/
theorem duplicate_name_rejected (w : World) (k : KubeConfig) (c : CliContext) (name : String)
    (rest : List String)
    (hargs : c.Args = name :: rest)
    (hname : ∃ x ∈ k.Contexts, x.Name = name) :
    (addContext w k c).2.2 = some Error.duplicatedContextName ∧
      (addContext w k c).1.files = w.files ∧ (addContext w k c).2.1 = k ∧
      (copyContext w k c).2.2 = some Error.duplicatedContextName ∧
      (copyContext w k c).1.files = w.files ∧ (copyContext w k c).2.1 = k ∧
      (∀ n, namedExists n k = true ↔ ∃ x ∈ k.Contexts, x.Name = n) := by
  have hiff : ∀ n, namedExists n k = true ↔ ∃ x ∈ k.Contexts, x.Name = n := by
    intro n
    rw [namedExists_iff]
    simp
  have hex : namedExists (c.Args.headD "") k = true := by
    rw [hargs]
    exact (hiff name).2 hname
  have hlen : ¬ c.Args.length < 1 := by
    rw [hargs]
    simp
  have hadd : addContext w k c = (w, k, some Error.duplicatedContextName) := by
    unfold addContext
    rw [if_neg hlen]
    dsimp only
    rw [if_pos hex]
  have hcopy : copyContext w k c = (w, k, some Error.duplicatedContextName) := by
    unfold copyContext
    rw [if_neg hlen]
    dsimp only
    rw [if_pos hex]
  rw [hadd, hcopy]
  exact ⟨rfl, rfl, rfl, rfl, rfl, rfl, hiff⟩

theorem duplicate_name_rejected_witness :
    (∃ x ∈ (GetConfigFile (sampleWorld sampleContent none)).1.Contexts, x.Name = "cntxA") ∧
      (addContext (sampleWorld sampleContent none)
        (GetConfigFile (sampleWorld sampleContent none)).1
        { Args := ["cntxA"], user := "new", ns := "tool", cluster := "my", profile := "love"
          }).2.2 = some Error.duplicatedContextName ∧
      (copyContext (sampleWorld sampleContent none)
        (GetConfigFile (sampleWorld sampleContent none)).1
        { Args := ["cntxA"], user := "new", ns := "tool", cluster := "my", profile := "love"
          }).2.1 = (GetConfigFile (sampleWorld sampleContent none)).1 :=
  have h := duplicate_name_rejected (sampleWorld sampleContent none)
    (GetConfigFile (sampleWorld sampleContent none)).1
    { Args := ["cntxA"], user := "new", ns := "tool", cluster := "my", profile := "love" }
    "cntxA" [] rfl (by decide)
  ⟨by decide, h.1, h.2.2.2.2.2.1⟩

theorem overwrite_eq (newer current : String) :
    overwrite newer current = if newer ≠ "" then newer else current := by
  unfold overwrite
  by_cases h : newer = ""
  · subst h
    rfl
  · have hlen : 0 < newer.length := by
      have := (length_lt_one_iff newer).not.2 h
      omega
    rw [if_pos hlen, if_pos h]

theorem copyContext_fresh (w : World) (k : KubeConfig) (c : CliContext) (name : String)
    (rest : List String) (hargs : c.Args = name :: rest)
    (hfresh : ∀ x ∈ k.Contexts, x.Name ≠ name) :
    copyContext w k c =
      match GetContextBy k k.CurrentContext with
      | (_, _, some err) => (w, k, some err)
      | (cc, _, none) =>
        SaveContexts w { k with
          Contexts := k.Contexts ++
            [{ Name := name,
               AWSprofile := overwrite c.profile cc.AWSprofile,
               Context := some
                 { User := overwrite c.user (cc.Context.getD Context.zero).User,
                   Namespace := overwrite c.ns (cc.Context.getD Context.zero).Namespace,
                   Cluster := overwrite c.cluster (cc.Context.getD Context.zero).Cluster } }] } := by
  have hex : ¬ namedExists (c.Args.headD "") k = true := by
    rw [hargs, namedExists_iff]
    simp only [List.headD_cons, List.mem_map, not_exists, not_and]
    exact hfresh
  have hlen : ¬ c.Args.length < 1 := by
    rw [hargs]
    simp
  unfold copyContext
  rw [if_neg hlen]
  dsimp only
  rw [if_neg hex, hargs]
  rfl

/-- C22: for a store and a fresh name given as first argument of `copy`: when `CurrentContext`
resolves to a context `cc` and `copy` succeeds, the store holds the contexts it had plus
exactly one new context with that name, whose profile, user, namespace and cluster are the
flag value when the flag is non-empty and the value of `cc` otherwise (empty if `cc` has no
`context` block), and `CurrentContext` is unchanged; when `CurrentContext` names no context,
`copy` returns the lookup error, writes nothing and leaves the store unchanged. -/
theorem copyContext_spec (w : World) (k : KubeConfig) (c : CliContext) (name : String)
    (rest : List String) (hargs : c.Args = name :: rest)
    (hfresh : ∀ x ∈ k.Contexts, x.Name ≠ name) :
    (∀ cc, k.Contexts.find? (fun x => decide (x.Name = k.CurrentContext)) = some cc →
        (copyContext w k c).2.2 = none →
        (copyContext w k c).2.1.Contexts.Perm (k.Contexts ++
          [{ Name := name,
             AWSprofile := if c.profile ≠ "" then c.profile else cc.AWSprofile,
             Context := some
               { User := if c.user ≠ "" then c.user else (cc.Context.getD Context.zero).User,
                 Namespace :=
                   if c.ns ≠ "" then c.ns else (cc.Context.getD Context.zero).Namespace,
                 Cluster :=
                   if c.cluster ≠ "" then c.cluster
                   else (cc.Context.getD Context.zero).Cluster } }]) ∧
        (copyContext w k c).2.1.CurrentContext = k.CurrentContext) ∧
      ((∀ x ∈ k.Contexts, x.Name ≠ k.CurrentContext) →
        (copyContext w k c).2.2 = some (Error.cannotFind k.CurrentContext) ∧
        (copyContext w k c).2.1 = k ∧ (copyContext w k c).1.files = w.files) := by
  rw [copyContext_fresh w k c name rest hargs hfresh]
  constructor
  · intro cc hcc _
    obtain ⟨idx, hg⟩ := GetContextBy_found k k.CurrentContext cc hcc
    rw [hg]
    dsimp only
    rw [SaveContexts_store]
    refine ⟨?_, rfl⟩
    simp only [← overwrite_eq, ensureContext_AWSprofile, ensureContext_Context,
      Option.getD_some]
    exact sortSlice_perm _
  · intro hmiss
    rw [GetContextBy_missing k k.CurrentContext hmiss]
    exact ⟨rfl, rfl, rfl⟩

theorem copyContext_spec_witness :
    (∀ x ∈ (GetConfigFile (sampleWorld sampleContent none)).1.Contexts, x.Name ≠ "copied") ∧
      (copyContext (sampleWorld sampleContent none)
        (GetConfigFile (sampleWorld sampleContent none)).1
        { Args := ["copied"], user := "", ns := "n1", cluster := "", profile := "" }).2.2
        = none ∧
      (copyContext (sampleWorld sampleContent none)
        (GetConfigFile (sampleWorld sampleContent none)).1
        { Args := ["copied"], user := "", ns := "n1", cluster := "", profile := "" }).2.1.Contexts
        = [ { Name := "cntxA", AWSprofile := "live", Context := none },
            { Name := "cntxB", AWSprofile := "live", Context := none },
            { Name := "cntxC", AWSprofile := "dev", Context := none },
            { Name := "copied", AWSprofile := "live",
              Context := some { Cluster := "", User := "", Namespace := "n1" } },
            { Name := "minikube", AWSprofile := "", Context := none } ] ∧
      (copyContext (sampleWorld sampleContent none)
        (GetConfigFile (sampleWorld sampleContent none)).1
        { Args := ["copied"], user := "", ns := "n1", cluster := "", profile := ""
          }).2.1.CurrentContext = "cntxB" :=
  have h := copyContext_spec (sampleWorld sampleContent none)
    (GetConfigFile (sampleWorld sampleContent none)).1
    { Args := ["copied"], user := "", ns := "n1", cluster := "", profile := "" }
    "copied" [] rfl (by decide)
  ⟨by decide, by decide, by decide,
    (h.1 { Name := "cntxB", AWSprofile := "live", Context := none } (by decide)
      (by decide)).2⟩

theorem samePassthrough_refl (k : KubeConfig) : samePassthrough k k :=
  ⟨rfl, rfl, rfl, rfl, rfl, rfl⟩

theorem SaveContexts_passthrough (w : World) (k k0 : KubeConfig) (h : samePassthrough k k0) :
    samePassthrough (SaveContexts w k).2.1 k0 ∧
      ((SaveContexts w k).2.2 = none → passthroughWritten (SaveContexts w k).1 k0) := by
  obtain ⟨h1, h2, h3, h4, h5, h6⟩ := h
  constructor
  · rw [SaveContexts_store]
    exact ⟨h1, h2, h3, h4, h5, h6⟩
  · intro hs
    rw [SaveContexts_success w k hs]
    refine ⟨yamlMarshal { k with Contexts := sortSlice k.Contexts }, ?_, h1, h2, h3, h4, h5⟩
    simp [h6]

theorem failure_passthrough (w : World) (k : KubeConfig) (err : Error) :
    samePassthrough (w, k, some err).2.1 k ∧
      ((w, k, some err).2.2 = none → passthroughWritten (w, k, some err).1 k) :=
  ⟨samePassthrough_refl k, fun h => by cases h⟩

theorem SetContextTo_passthrough (w : World) (k : KubeConfig) (contextName : String) :
    samePassthrough (SetContextTo w k contextName).2.1 k ∧
      ((SetContextTo w k contextName).2.2 = none →
        passthroughWritten (SetContextTo w k contextName).1 k) := by
  unfold SetContextTo
  split
  · exact failure_passthrough _ _ _
  · split
    · exact failure_passthrough _ _ _
    · split
      · exact failure_passthrough _ _ _
      · split
        · exact failure_passthrough _ _ _
        · exact SaveContexts_passthrough _ _ k (samePassthrough_refl k)

theorem AddProfileTo_passthrough (w : World) (k : KubeConfig) (contextName profileName : String) :
    samePassthrough (AddProfileTo w k contextName profileName).2.1 k ∧
      ((AddProfileTo w k contextName profileName).2.2 = none →
        passthroughWritten (AddProfileTo w k contextName profileName).1 k) := by
  unfold AddProfileTo
  split
  · exact failure_passthrough _ _ _
  · split
    · exact failure_passthrough _ _ _
    · split
      · exact SaveContexts_passthrough _ _ k (samePassthrough_refl k)
      · exact failure_passthrough _ _ _

theorem AddNamespaceTo_passthrough (w : World) (k : KubeConfig) (contextName ns : String) :
    samePassthrough (AddNamespaceTo w k contextName ns).2.1 k ∧
      ((AddNamespaceTo w k contextName ns).2.2 = none →
        passthroughWritten (AddNamespaceTo w k contextName ns).1 k) := by
  unfold AddNamespaceTo
  split
  · exact failure_passthrough _ _ _
  · exact SaveContexts_passthrough _ _ k (samePassthrough_refl k)

/-- C23: each of `SaveContexts`, `SetContextTo`, `AddProfileTo`, `AddNamespaceTo` and
`UnSetDefault`, successful or not, leaves `ApiVersion`, `Kind`, `Preferences`, `Clusters`,
`Users` and `Path` of the store as they were, and a successful one writes a document with
those same values of the passthrough fields to the file at `Path`. -/
theorem passthrough_kept (w : World) (k : KubeConfig) :
    (samePassthrough (SaveContexts w k).2.1 k ∧
        ((SaveContexts w k).2.2 = none → passthroughWritten (SaveContexts w k).1 k)) ∧
      (∀ contextName,
        samePassthrough (SetContextTo w k contextName).2.1 k ∧
        ((SetContextTo w k contextName).2.2 = none →
          passthroughWritten (SetContextTo w k contextName).1 k)) ∧
      (∀ contextName profileName,
        samePassthrough (AddProfileTo w k contextName profileName).2.1 k ∧
        ((AddProfileTo w k contextName profileName).2.2 = none →
          passthroughWritten (AddProfileTo w k contextName profileName).1 k)) ∧
      (∀ contextName ns,
        samePassthrough (AddNamespaceTo w k contextName ns).2.1 k ∧
        ((AddNamespaceTo w k contextName ns).2.2 = none →
          passthroughWritten (AddNamespaceTo w k contextName ns).1 k)) ∧
      (samePassthrough (UnSetDefault w k).2.1 k ∧
        ((UnSetDefault w k).2.2 = none → passthroughWritten (UnSetDefault w k).1 k)) :=
  ⟨SaveContexts_passthrough w k k (samePassthrough_refl k),
    SetContextTo_passthrough w k,
    AddProfileTo_passthrough w k,
    AddNamespaceTo_passthrough w k,
    SaveContexts_passthrough w _ k (samePassthrough_refl k)⟩

theorem passthrough_kept_witness :
    (SetContextTo (sampleWorld sampleContent none)
        (GetConfigFile (sampleWorld sampleContent none)).1 "cntxA").2.2 = none ∧
      (SetContextTo (sampleWorld sampleContent none)
        (GetConfigFile (sampleWorld sampleContent none)).1 "cntxA").2.1.Preferences
        = ⟨"{}"⟩ ∧
      passthroughWritten
        (SetContextTo (sampleWorld sampleContent none)
          (GetConfigFile (sampleWorld sampleContent none)).1 "cntxA").1
        (GetConfigFile (sampleWorld sampleContent none)).1 ∧
      samePassthrough
        (AddNamespaceTo (readOnlyWorld sampleContent none)
          (GetConfigFile (sampleWorld sampleContent none)).1 "cntxA" "n1").2.1
        (GetConfigFile (sampleWorld sampleContent none)).1 :=
  have h := passthrough_kept (sampleWorld sampleContent none)
    (GetConfigFile (sampleWorld sampleContent none)).1
  have h2 := passthrough_kept (readOnlyWorld sampleContent none)
    (GetConfigFile (sampleWorld sampleContent none)).1
  ⟨by decide, by decide, (h.2.1 "cntxA").2 (by decide), (h2.2.2.2.1 "cntxA" "n1").1⟩

/-- C24: when the content of the config file is readable and parseable with pairwise distinct
context names, `GetConfigFile` succeeds whatever `current-context` is and returns it unchanged
as `CurrentContext`; when it names no context, `GetContextBy`, `SetContextTo`, `AddProfileTo`
and `AddNamespaceTo` on that name return the lookup error. -/
theorem GetConfigFile_dangling (w : World) (d : Document)
    (hread : w.files (configPath w.env) = some (FileContent.document d))
    (hnodup : (d.Contexts.map (fun c => c.Name)).Nodup) :
    (GetConfigFile w).2 = none ∧
      (GetConfigFile w).1.CurrentContext = d.CurrentContext ∧
      ((∀ c ∈ d.Contexts, c.Name ≠ d.CurrentContext) →
        (GetContextBy (GetConfigFile w).1 d.CurrentContext).2.2
          = some (Error.cannotFind d.CurrentContext) ∧
        (∀ v, (SetContextTo v (GetConfigFile w).1 d.CurrentContext).2.2
          = some (Error.cannotFind d.CurrentContext)) ∧
        (∀ v p, (AddProfileTo v (GetConfigFile w).1 d.CurrentContext p).2.2
          = some (Error.cannotFind d.CurrentContext)) ∧
        (∀ v n, (AddNamespaceTo v (GetConfigFile w).1 d.CurrentContext n).2.2
          = some (Error.cannotFind d.CurrentContext))) := by
  have hres := GetConfigFile_document w d hread
  rw [(findDuplicate_eq_none_iff _).2 hnodup] at hres
  rw [hres]
  refine ⟨rfl, rfl, ?_⟩
  intro hmiss
  have hmiss2 : ∀ c ∈ sortSlice d.Contexts, c.Name ≠ d.CurrentContext :=
    fun c hc => hmiss c ((sortSlice_perm _).mem_iff.1 hc)
  have hg := GetContextBy_missing
    { yamlUnmarshal d { KubeConfig.zero with Path := configPath w.env } with
      Contexts := sortSlice d.Contexts } d.CurrentContext hmiss2
  refine ⟨by rw [hg], ?_, ?_, ?_⟩
  · intro v
    unfold SetContextTo
    rw [hg]
  · intro v p
    unfold AddProfileTo
    rw [hg]
  · intro v n
    unfold AddNamespaceTo
    rw [hg]

theorem GetConfigFile_dangling_witness :
    (GetConfigFile (sampleWorld danglingContent none)).2 = none ∧
      (GetConfigFile (sampleWorld danglingContent none)).1.CurrentContext = "gone" ∧
      (SetContextTo (sampleWorld danglingContent none)
        (GetConfigFile (sampleWorld danglingContent none)).1 "gone").2.2
        = some (Error.cannotFind "gone") :=
  have h := GetConfigFile_dangling (sampleWorld danglingContent none)
    (sampleDocument
      [ { Name := "cntxA", AWSprofile := "live",
          Context := some { Cluster := "clstrA", User := "userA", Namespace := "aaaaa" } },
        { Name := "bare", AWSprofile := "", Context := none } ] "gone")
    (by decide) (by decide)
  ⟨h.1, h.2.1, (h.2.2 (by decide)).2.1 (sampleWorld danglingContent none)⟩

/-- C26: when the file at the resolved path cannot be read, `GetConfigFile` returns a non-nil
error (the read error) and a store with no contexts, an empty `CurrentContext` and the resolved
path as `Path`; the resolved path is the value of `KUBECONFIG` when that is non-empty, and
otherwise `filepath.Join(home, ".kube", "config")`, where home is `USERPROFILE` on Windows and
`HOME` elsewhere. -/
theorem GetConfigFile_unreadable (w : World) (hread : w.files (configPath w.env) = none) :
    (GetConfigFile w).2 ≠ none ∧
      (GetConfigFile w).2 = some (Error.readFile (configPath w.env)) ∧
      (GetConfigFile w).1.Contexts = [] ∧
      (GetConfigFile w).1.CurrentContext = "" ∧
      (GetConfigFile w).1.Path = configPath w.env ∧
      (w.env.KUBECONFIG ≠ "" → configPath w.env = w.env.KUBECONFIG) ∧
      (w.env.KUBECONFIG = "" →
        configPath w.env = filepathJoin w.env.GOOS
          [if w.env.GOOS = "windows" then w.env.USERPROFILE else w.env.HOME,
            ".kube", "config"]) := by
  have hres : GetConfigFile w
      = ({ KubeConfig.zero with Path := configPath w.env },
          some (Error.readFile (configPath w.env))) := by
    unfold GetConfigFile ReadFile
    simp only [hread]
  rw [hres]
  refine ⟨by simp, rfl, rfl, rfl, rfl, ?_, ?_⟩
  · intro hk
    unfold configPath
    have hlen : 0 < w.env.KUBECONFIG.length := by
      have := (length_lt_one_iff w.env.KUBECONFIG).not.2 hk
      omega
    simp only [if_pos hlen]
  · intro hk
    unfold configPath home
    rw [hk]
    rfl

theorem GetConfigFile_unreadable_witness :
    ({ sampleWorld sampleContent none with
        env := { sampleEnv with HOME := "testdata/xxxxx" } } : World).files
        (configPath { sampleEnv with HOME := "testdata/xxxxx" }) = none ∧
      (GetConfigFile { sampleWorld sampleContent none with
        env := { sampleEnv with HOME := "testdata/xxxxx" } }).2
        = some (Error.readFile "testdata/xxxxx/.kube/config") ∧
      (GetConfigFile { sampleWorld sampleContent none with
        env := { sampleEnv with HOME := "testdata/xxxxx" } }).1.Path
        = "testdata/xxxxx/.kube/config" ∧
      (GetConfigFile { sampleWorld sampleContent none with
        env := { sampleEnv with HOME := "testdata/xxxxx" } }).1.Contexts = [] :=
  have h := GetConfigFile_unreadable
    { sampleWorld sampleContent none with env := { sampleEnv with HOME := "testdata/xxxxx" } }
    (by decide)
  ⟨by decide, by decide, by decide, h.2.2.1⟩

theorem GetConfigFile_ok_sorted (w : World) (h : (GetConfigFile w).2 = none) :
    (GetConfigFile w).1.Contexts.Pairwise (fun a b => a.Name ≤ b.Name) ∧
      ((GetConfigFile w).1.Contexts.map (fun c => c.Name)).Nodup := by
  obtain ⟨d, _, hn, hctx, _⟩ := GetConfigFile_ok w h
  rw [hctx]
  exact ⟨sortSlice_sorted _, (sortSlice_names_perm d.Contexts).nodup_iff.2 hn⟩

theorem nodup_index_unique (l : List String) (h : l.Nodup) (i j : Nat) (a : String)
    (hi : l[i]? = some a) (hj : l[j]? = some a) : j = i := by
  obtain ⟨hil, hia⟩ := List.getElem?_eq_some.1 hi
  obtain ⟨hjl, hja⟩ := List.getElem?_eq_some.1 hj
  exact (h.getElem_inj_iff).1 (hja.trans hia.symm)

/-- C27: on a store that `GetConfigFile` returns without error, the names of `Contexts`, taken
in order, are the list `GetContextNames` returns, so position `i` holds the same name in both,
and the index that `GetContextBy` returns for a name is the one position of that name in
`GetContextNames`. -/
theorem positions_agree (w : World) (hload : (GetConfigFile w).2 = none) :
    (GetConfigFile w).1.Contexts.map (fun c => c.Name) = GetContextNames (GetConfigFile w).1 ∧
      (∀ (i : Nat) (c : KubeContext), (GetConfigFile w).1.Contexts[i]? = some c →
        (GetContextNames (GetConfigFile w).1)[i]? = some c.Name) ∧
      (∀ name, (GetContextBy (GetConfigFile w).1 name).2.2 = none →
        ∃ i : Nat, (GetContextBy (GetConfigFile w).1 name).2.1 = Int.ofNat i ∧
          (GetContextNames (GetConfigFile w).1)[i]? = some name ∧
          ∀ j, (GetContextNames (GetConfigFile w).1)[j]? = some name → j = i) := by
  obtain ⟨hsorted, hnodup⟩ := GetConfigFile_ok_sorted w hload
  have hnames := GetContextNames_of_sorted (GetConfigFile w).1 hsorted
  refine ⟨hnames.symm, ?_, ?_⟩
  · intro i c hc
    rw [hnames, List.getElem?_map, hc]
    rfl
  · intro name hg
    obtain ⟨l1, c, l2, hl, _, hc, hres⟩ := GetContextBy_ok (GetConfigFile w).1 name hg
    have hat : (GetContextNames (GetConfigFile w).1)[l1.length]? = some name := by
      rw [hnames, List.getElem?_map, hl, getElem_append_cons_length, ← hc]
      rfl
    refine ⟨l1.length, by rw [hres], hat, ?_⟩
    intro j hj
    rw [hnames] at hat hj
    exact nodup_index_unique _ hnodup l1.length j name hat hj

theorem positions_agree_witness :
    (GetConfigFile (sampleWorld sampleContent none)).2 = none ∧
      (GetConfigFile (sampleWorld sampleContent none)).1.Contexts.map (fun c => c.Name)
        = GetContextNames (GetConfigFile (sampleWorld sampleContent none)).1 ∧
      GetContextNames (GetConfigFile (sampleWorld sampleContent none)).1
        = ["cntxA", "cntxB", "cntxC", "minikube"] ∧
      (GetContextBy (GetConfigFile (sampleWorld sampleContent none)).1 "cntxC").2.1 = 2 :=
  have h := positions_agree (sampleWorld sampleContent none) (by decide)
  ⟨by decide, h.1, by decide, by decide⟩

theorem SaveContexts_append_names (w : World) (k : KubeConfig) (y : KubeContext)
    (hk : ∀ x ∈ k.Contexts, x.Name ≠ "") (hy : y.Name ≠ "") :
    ∀ x ∈ (SaveContexts w { k with Contexts := k.Contexts ++ [y] }).2.1.Contexts,
      x.Name ≠ "" := by
  intro x hx
  rw [SaveContexts_store] at hx
  have hx2 : x ∈ k.Contexts ++ [y] := (sortSlice_perm _).mem_iff.1 hx
  rcases List.mem_append.1 hx2 with h | h
  · exact hk x h
  · rw [List.mem_singleton.1 h]
    exact hy

theorem headD_ne_empty (args : List String) (harg : args.head? ≠ some "")
    (hlen : ¬ args.length < 1) : args.headD "" ≠ "" := by
  cases args with
  | nil => simp at hlen
  | cons a rest =>
    intro h
    apply harg
    simp only [List.headD_cons] at h
    rw [List.head?_cons, h]

/-- C25 (as amended): a store that `GetConfigFile` returns without error has exactly the
context names of the parsed content, so it contains an empty name exactly when the content
does; and from a store without an empty name the commands `new` and `copy`, called with a name
argument that is not the empty string, leave a store without an empty name. -/
theorem names_nonempty_kept (w : World) (k : KubeConfig) (c : CliContext)
    (hk : ∀ x ∈ k.Contexts, x.Name ≠ "")
    (harg : c.Args.head? ≠ some "") :
    ((GetConfigFile w).2 = none →
        ∃ d, w.files (configPath w.env) = some (FileContent.document d) ∧
          ∀ n, n ∈ (GetConfigFile w).1.Contexts.map (fun x => x.Name) ↔
            n ∈ d.Contexts.map (fun x => x.Name)) ∧
      (∀ x ∈ (addContext w k c).2.1.Contexts, x.Name ≠ "") ∧
      (∀ x ∈ (copyContext w k c).2.1.Contexts, x.Name ≠ "") := by
  refine ⟨?_, ?_, ?_⟩
  · intro h
    obtain ⟨d, hd, _, hctx, _⟩ := GetConfigFile_ok w h
    refine ⟨d, hd, ?_⟩
    intro n
    rw [hctx]
    exact (sortSlice_names_perm d.Contexts).mem_iff
  · unfold addContext
    by_cases hlen : c.Args.length < 1
    · rw [if_pos hlen]
      exact hk
    · rw [if_neg hlen]
      dsimp only
      split
      · exact hk
      · exact SaveContexts_append_names w k _ hk (headD_ne_empty c.Args harg hlen)
  · unfold copyContext
    by_cases hlen : c.Args.length < 1
    · rw [if_pos hlen]
      exact hk
    · rw [if_neg hlen]
      dsimp only
      by_cases hex : namedExists (c.Args.headD "") k = true
      · rw [if_pos hex]
        exact hk
      · rw [if_neg hex]
        split
        · exact hk
        · exact SaveContexts_append_names w k _ hk (headD_ne_empty c.Args harg hlen)

theorem names_nonempty_kept_witness :
    (∀ x ∈ sampleStore.Contexts, x.Name ≠ "") ∧
      (addContext (sampleWorld sampleContent none) sampleStore
        { Args := ["I"], user := "new", ns := "tool", cluster := "my", profile := "love"
          }).2.2 = none ∧
      (∀ x ∈ (addContext (sampleWorld sampleContent none) sampleStore
        { Args := ["I"], user := "new", ns := "tool", cluster := "my", profile := "love"
          }).2.1.Contexts, x.Name ≠ "") :=
  have h := names_nonempty_kept (sampleWorld sampleContent none) sampleStore
    { Args := ["I"], user := "new", ns := "tool", cluster := "my", profile := "love" }
    (by decide) (by decide)
  ⟨by decide, by decide, h.2.1⟩

/-- C25 (as stated) fails: a kube config whose only context has the empty name loads without
error and the store holds that context; and `new` with the empty string as name argument, on
the store loaded from the sample kube config, succeeds and adds a context whose name is
empty. -/
theorem empty_name_counterexample :
    (GetConfigFile (sampleWorld emptyNameContent none)).2 = none ∧
      (GetConfigFile (sampleWorld emptyNameContent none)).1.Contexts.map (fun x => x.Name)
        = [""] ∧
      (addContext (sampleWorld sampleContent none)
        (GetConfigFile (sampleWorld sampleContent none)).1
        { Args := [""], user := "", ns := "", cluster := "", profile := "" }).2.2 = none ∧
      (addContext (sampleWorld sampleContent none)
        (GetConfigFile (sampleWorld sampleContent none)).1
        { Args := [""], user := "", ns := "", cluster := "", profile := ""
          }).2.1.Contexts.map (fun x => x.Name)
        = ["", "cntxA", "cntxB", "cntxC", "minikube"] := by
  decide

/-- C28 fails on the code: `fetchContexts` assigns `noContext` to `curr` when `CurrentContext`
does not resolve, but the assignment `p.curr = file.CurrentContext` that follows is executed
in every case and overwrites it.  With an empty `current-context` the result has `curr` empty,
with a dangling one it has the dangling name, in both cases with `currIdx` on the last list
item; with a `current-context` that resolves the result is as the claim says. -/
theorem fetchContexts_curr_overwritten :
    fetchContexts (sampleWorld unsetContent none)
        = (some { curr := "", currIdx := 1, list := ["cntxA", "--No Current Context--"],
                  file := (GetConfigFile (sampleWorld unsetContent none)).1 }, none) ∧
      fetchContexts (sampleWorld danglingContent none)
        = (some { curr := "gone", currIdx := 2,
                  list := ["bare", "cntxA", "--No Current Context--"],
                  file := (GetConfigFile (sampleWorld danglingContent none)).1 }, none) ∧
      fetchContexts (sampleWorld tableContent none)
        = (some { curr := "cntxB", currIdx := 1,
                  list := ["cntxA", "cntxB", "--No Current Context--"],
                  file := (GetConfigFile (sampleWorld tableContent none)).1 }, none) := by
  decide

/-- C29 fails on the code: the table listing reads `c.Context.Cluster` through the embedded
pointer without the nil check that `GetContextBy` has, so on a loaded store with an entry that
has no `context` block it panics with a nil dereference; on a store whose entries all have a
block it yields one row per context, as the claim says. -/
theorem getContexts_nil_block :
    (GetConfigFile (sampleWorld danglingContent none)).2 = none ∧
      (GetConfigFile (sampleWorld danglingContent none)).1.Contexts
        = [ { Name := "bare", AWSprofile := "", Context := none },
            { Name := "cntxA", AWSprofile := "live",
              Context := some { Cluster := "clstrA", User := "userA", Namespace := "aaaaa" } } ] ∧
      getContexts (GetConfigFile (sampleWorld danglingContent none)).1
        = Except.error Panic.nilDereference ∧
      getContexts (GetConfigFile (sampleWorld tableContent none)).1
        = Except.ok
            [ ["0", "", "cntxA", "live", "clstrA", "userA", "aaaaa"],
              ["1", "*", "cntxB", "live", "clstrB", "userB", "bbbbb"] ] := by
  decide

end Eksdefault
